import Mathlib

/-!
# Formal model of the `bring-back-BOLO` game engine

A shallow embedding of the core simulation engine in `src/bolo_engine.py`:
the tile map (`GameMap`), the entity variants (`Tank`, `Shell`, `Mine`,
`Pillbox`, `Base`), and the per-frame pipeline (`GameState.update` with its
collision resolver `_process_collisions`).

Modelling conventions:
* Python `float` values (positions, speeds, multipliers) are modelled as `ℚ`.
* `math.sqrt d < r` (with `d` a sum of squares, hence `d ≥ 0`) is modelled by
  the exactly equivalent rational test `0 ≤ r ∧ d < r * r` (`sqrt_lt` below,
  justified by `sqrt_lt_iff_sqrt_lt`).
* `math.cos`/`math.sin`/`math.atan2` (degrees) and the random stream of
  `random.random()` are threaded as an explicit environment `Env`; every
  theorem below therefore holds for all interpretations of the trigonometric
  functions and of the RNG.
* The process-wide entity-id counter `Entity._next_id` and the implicit RNG
  cursor are carried as the fields `next_id` / `rng_idx` of `GameState`.
* Python lists of objects mutated in place are modelled as Lean lists with
  explicit index-based writeback (`List.set`); the iteration order of every
  loop is preserved exactly.
-/

namespace Bolo

/-! ## Configuration constants (`Config` in the source) -/

namespace Config

def TILE_SIZE : Int := 16
def WINDOW_WIDTH : Int := 1024
def WINDOW_HEIGHT : Int := 768
def MAP_WIDTH : Nat := 64
def MAP_HEIGHT : Nat := 48
def TANK_MAX_ARMOR : Int := 8
def TANK_MAX_SHELLS : Int := 40
def TANK_MAX_MINES : Int := 40
def TANK_MAX_WOOD : Int := 40
def TANK_BASE_SPEED : ℚ := 2
def TANK_ROTATION_SPEED : ℚ := 4
def TANK_SIZE : Int := 12
def SHELL_DAMAGE : Int := 1
def SHELL_SPEED : ℚ := 6
def SHELL_LIFETIME : Int := 90
def MINE_DAMAGE : Int := 4
def PILLBOX_MAX_HEALTH : Int := 16
def PILLBOX_FIRE_RATE : Int := 30
def PILLBOX_RANGE : ℚ := 150
def BASE_RESUPPLY_RATE : Int := 1200

end Config

/-! ## Terrain (`TileType`, `TerrainInfo`, `TERRAIN_DATA`) -/

/-- Terrain tile types matching the source `TileType` enum. -/
inductive TileType
  | DEEP_WATER
  | RIVER
  | SWAMP
  | CRATER
  | ROAD
  | FOREST
  | RUBBLE
  | GRASS
  | WALL
  | DAMAGED_WALL
  | BOAT
deriving DecidableEq, Repr

/-- Properties for each terrain type (`TerrainInfo` dataclass). -/
structure TerrainInfo where
  name : String
  speed_multiplier : ℚ
  passable : Bool
  blocks_shots : Bool
  destructible : Bool
  color : Int × Int × Int
deriving DecidableEq, Repr

/-- The terrain lookup table `TERRAIN_DATA`.  The source dictionary is total
over the enum, so it is modelled as a total function. -/
def TERRAIN_DATA : TileType → TerrainInfo
  | .DEEP_WATER => ⟨"Deep Water", 0, false, false, false, (20, 60, 120)⟩
  | .RIVER => ⟨"River", 0.3, true, false, false, (40, 100, 160)⟩
  | .SWAMP => ⟨"Swamp", 0.25, true, false, true, (60, 80, 40)⟩
  | .CRATER => ⟨"Crater", 0.5, true, false, false, (80, 70, 50)⟩
  | .ROAD => ⟨"Road", 1.2, true, false, false, (60, 60, 60)⟩
  | .FOREST => ⟨"Forest", 0.4, true, false, true, (20, 80, 20)⟩
  | .RUBBLE => ⟨"Rubble", 0.6, true, false, false, (90, 85, 75)⟩
  | .GRASS => ⟨"Grass", 0.8, true, false, false, (50, 120, 50)⟩
  | .WALL => ⟨"Wall", 0, false, true, true, (100, 100, 100)⟩
  | .DAMAGED_WALL => ⟨"Damaged Wall", 0, false, true, true, (120, 110, 100)⟩
  | .BOAT => ⟨"Boat", 0.8, true, false, true, (120, 80, 40)⟩

/-- Team affiliations (`Team` enum). -/
inductive Team
  | NEUTRAL
  | TEAM_1
  | TEAM_2
  | TEAM_3
  | TEAM_4
deriving DecidableEq, Repr

/-! ## The tile map (`GameMap`) -/

/-- The tile map: a `height × width` grid stored row-major, as in the source
(`self.tiles[y][x]`), plus the cached-surface dirty flag. -/
structure GameMap where
  width : Nat
  height : Nat
  tiles : List (List TileType)
  dirty : Bool
deriving DecidableEq, Repr

/-- `GameMap.__init__`: a grass-filled `width × height` grid. -/
def GameMap.new (width height : Nat) : GameMap :=
  ⟨width, height, List.replicate height (List.replicate width .GRASS), true⟩

def GameMap.pixel_width (m : GameMap) : Int := (m.width : Int) * Config.TILE_SIZE

def GameMap.pixel_height (m : GameMap) : Int := (m.height : Int) * Config.TILE_SIZE

/-- Structural well-formedness of the grid: the row/column counts match the
declared dimensions (guaranteed by the source constructor and preserved by
every mutation). -/
def GameMap.WF (m : GameMap) : Prop :=
  m.tiles.length = m.height ∧ ∀ row ∈ m.tiles, row.length = m.width

/-- `GameMap.get_tile`: bounds-checked lookup, out of bounds yields `WALL`. -/
def GameMap.get_tile (m : GameMap) (x y : Int) : TileType :=
  if 0 ≤ x ∧ x < (m.width : Int) ∧ 0 ≤ y ∧ y < (m.height : Int) then
    (m.tiles.getD y.toNat []).getD x.toNat .WALL
  else .WALL

/-- `GameMap.set_tile`: bounds-checked write; no-op outside the grid. -/
def GameMap.set_tile (m : GameMap) (x y : Int) (t : TileType) : GameMap :=
  if 0 ≤ x ∧ x < (m.width : Int) ∧ 0 ≤ y ∧ y < (m.height : Int) then
    { m with tiles := m.tiles.set y.toNat ((m.tiles.getD y.toNat []).set x.toNat t),
             dirty := true }
  else m

/-- `GameMap.damage_tile`: the destructible-terrain transition table. -/
def GameMap.damage_tile (m : GameMap) (x y : Int) : GameMap :=
  match m.get_tile x y with
  | .WALL => m.set_tile x y .DAMAGED_WALL
  | .DAMAGED_WALL => m.set_tile x y .RUBBLE
  | .FOREST => m.set_tile x y .GRASS
  | .SWAMP => m.set_tile x y .CRATER
  | _ => m

/-! ## Claim C7: the terrain lookup table -/

/-- C7, counterexample: the claim "exactly one terrain kind has
`speed_multiplier == 0` together with `passable == False`" is false — in
`TERRAIN_DATA` the kinds `DEEP_WATER`, `WALL` and `DAMAGED_WALL` all have a
zero speed multiplier and are impassable. -/
theorem C7_counterexample :
    ¬ (∃! k : TileType,
        (TERRAIN_DATA k).speed_multiplier = 0 ∧ (TERRAIN_DATA k).passable = false) := by
  rintro ⟨k, _, huniq⟩
  have h1 : TileType.DEEP_WATER = k := huniq .DEEP_WATER ⟨rfl, rfl⟩
  have h2 : TileType.WALL = k := huniq .WALL ⟨rfl, rfl⟩
  exact absurd (h1.trans h2.symm) (by decide)

/-- C7 (amended): over `TERRAIN_DATA`, no terrain kind has a negative speed
multiplier; exactly one terrain kind (`DEEP_WATER`) has a zero speed
multiplier, is impassable and does not block shots; and `blocks_shots` is
true exactly for `WALL` and `DAMAGED_WALL` (so deep water is impassable but
does not block shots). -/
theorem C7_terrain_table :
    (∀ k, 0 ≤ (TERRAIN_DATA k).speed_multiplier) ∧
    (∃! k : TileType,
      (TERRAIN_DATA k).speed_multiplier = 0 ∧ (TERRAIN_DATA k).passable = false ∧
        (TERRAIN_DATA k).blocks_shots = false) ∧
    (∀ k, (TERRAIN_DATA k).blocks_shots = true ↔ (k = .WALL ∨ k = .DAMAGED_WALL)) := by
  refine ⟨fun k => ?_, ⟨.DEEP_WATER, ⟨rfl, rfl, rfl⟩, fun k hk => ?_⟩, fun k => ?_⟩
  · cases k <;> exact of_decide_eq_true (by with_unfolding_all rfl)
  · cases k <;>
      first
        | rfl
        | exact absurd hk (of_decide_eq_true (by with_unfolding_all rfl))
  · cases k <;> exact ⟨fun h => by simp_all [TERRAIN_DATA], fun h => by simp_all [TERRAIN_DATA]⟩

/-! ## Environment: trigonometry and randomness

`math.cos`/`math.sin`/`math.atan2` (in degrees, as the source converts) and
the stream of `random.random()` draws are opaque to the verification: they are
passed as an explicit environment, and every theorem holds for all
interpretations. -/

structure Env where
  cosD : ℚ → ℚ
  sinD : ℚ → ℚ
  atan2D : ℚ → ℚ → ℚ
  rand : Nat → ℚ

/-- `sqrt_lt d r` decides `Real.sqrt d < r` for `0 ≤ d` without leaving `ℚ`
(see `sqrt_lt_iff_sqrt_lt`).  Every distance comparison in the source is
`math.sqrt d < r` with `d` a sum of squares. -/
def sqrt_lt (d r : ℚ) : Bool :=
  decide (0 ≤ r) && decide (d < r * r)

/-- `math.sqrt(dx*dx + dy*dy) < r`, the source's circle-overlap test. -/
def dist_lt (dx dy r : ℚ) : Bool :=
  sqrt_lt (dx * dx + dy * dy) r

/-- Justification for `sqrt_lt`: it agrees with the real square-root
comparison at every nonnegative radicand. -/
theorem sqrt_lt_iff_sqrt_lt (d r : ℚ) (hd : 0 ≤ d) :
    sqrt_lt d r = true ↔ Real.sqrt (d : ℝ) < (r : ℝ) := by
  unfold sqrt_lt
  simp only [Bool.and_eq_true, decide_eq_true_iff]
  rcases le_or_lt r 0 with hr | hr
  · have hrR : (r : ℝ) ≤ 0 := by exact_mod_cast hr
    have hs : ¬ Real.sqrt (d : ℝ) < (r : ℝ) :=
      not_lt.mpr (le_trans hrR (Real.sqrt_nonneg _))
    simp only [hs, iff_false]
    rintro ⟨h0, h⟩
    have hre : r = 0 := le_antisymm hr h0
    subst hre
    simp only [mul_zero] at h
    exact absurd hd (not_le.mpr h)
  · have hrR : (0 : ℝ) < (r : ℝ) := by exact_mod_cast hr
    rw [Real.sqrt_lt' hrR]
    have hcast : ((d : ℝ) < (r : ℝ) ^ 2) ↔ d < r * r := by
      rw [sq]
      constructor
      · intro h; exact_mod_cast h
      · intro h; exact_mod_cast h
    rw [hcast]
    exact ⟨fun h => h.2, fun h => ⟨le_of_lt hr, h⟩⟩

/-- Python's `int(x // TILE_SIZE)`: floor division of a float by 16. -/
def tile_pos (v : ℚ) : Int := ⌊v / (Config.TILE_SIZE : ℚ)⌋

/-! ## Entity variants -/

/-- Container for tank resources (`Resources` dataclass). -/
structure Resources where
  armor : Int := Config.TANK_MAX_ARMOR
  shells : Int := Config.TANK_MAX_SHELLS
  mines : Int := Config.TANK_MAX_MINES
  wood : Int := 0
deriving DecidableEq, Repr

/-- Player-controlled tank (`Tank`).  The unused rendering-only state is kept
where the engine reads it (`is_moving`, LGM timers); the carried-pillbox list,
which no engine path reads, is omitted. -/
structure Tank where
  id : Nat
  x : ℚ
  y : ℚ
  alive : Bool := true
  team : Team
  angle : ℚ := 0
  resources : Resources := {}
  speed : ℚ := Config.TANK_BASE_SPEED
  size : Int := Config.TANK_SIZE
  is_moving : Bool := false
  has_boat : Bool := false
  lgm_deployed : Bool := false
  lgm_respawn_timer : Int := 0
  fire_cooldown : Int := 0
  fire_rate : Int := 10
deriving DecidableEq, Repr

/-- Projectile (`Shell`). -/
structure Shell where
  id : Nat
  x : ℚ
  y : ℚ
  alive : Bool := true
  angle : ℚ
  team : Team
  owner_id : Nat
  speed : ℚ := Config.SHELL_SPEED
  damage : Int := Config.SHELL_DAMAGE
  lifetime : Int := Config.SHELL_LIFETIME
  radius : Int := 3
deriving DecidableEq, Repr

/-- Explosive mine (`Mine`). -/
structure Mine where
  id : Nat
  x : ℚ
  y : ℚ
  alive : Bool := true
  team : Team
  hidden : Bool := false
  damage : Int := Config.MINE_DAMAGE
  radius : Int := 6
  detection_radius : Int := 4
deriving DecidableEq, Repr

/-- Automated defensive turret (`Pillbox`). -/
structure Pillbox where
  id : Nat
  x : ℚ
  y : ℚ
  alive : Bool := true
  team : Team := .NEUTRAL
  health : Int := Config.PILLBOX_MAX_HEALTH
  fire_rate : Int := Config.PILLBOX_FIRE_RATE
  fire_cooldown : Int := 0
  range : ℚ := Config.PILLBOX_RANGE
  size : Int := 8
  active : Bool := true
  aggression : Int := 0
deriving DecidableEq, Repr

/-- Refueling and resupply station (`Base`). -/
structure Base where
  id : Nat
  x : ℚ
  y : ℚ
  alive : Bool := true
  team : Team := .NEUTRAL
  health : Int := 16
  size : Int := 16
  shells : Int := 20
  mines : Int := 10
  armor : Int := 8
  regen_timer : Int := Config.BASE_RESUPPLY_RATE
deriving DecidableEq, Repr

/-- The closed variant set of entities managed by `GameState.entities`. -/
inductive Entity
  | tank : Tank → Entity
  | shell : Shell → Entity
  | mine : Mine → Entity
  | pillbox : Pillbox → Entity
  | base : Base → Entity
deriving DecidableEq, Repr

/-- The unique entity identifier (`Entity.id`, assigned from the process-wide
counter at construction). -/
def Entity.eid : Entity → Nat
  | .tank t => t.id
  | .shell s => s.id
  | .mine m => m.id
  | .pillbox p => p.id
  | .base b => b.id

/-- The `alive` lifecycle flag of an entity. -/
def Entity.is_alive : Entity → Bool
  | .tank t => t.alive
  | .shell s => s.alive
  | .mine m => m.alive
  | .pillbox p => p.alive
  | .base b => b.alive

/-! ## Tank methods -/

/-- `Tank.fire`: fail on cooldown or with no shells, otherwise decrement the
shell stock, reset the cooldown and spawn a shell at the cannon tip.  The
fresh id the source's global counter would assign is passed as `next_id`. -/
def Tank.fire (env : Env) (next_id : Nat) (t : Tank) : Option Shell × Tank :=
  if t.fire_cooldown > 0 ∨ t.resources.shells ≤ 0 then (none, t)
  else
    let cannon_length : ℚ := (t.size : ℚ) + 8
    let sx := t.x + env.cosD t.angle * cannon_length
    let sy := t.y + env.sinD t.angle * cannon_length
    (some { id := next_id, x := sx, y := sy, angle := t.angle, team := t.team,
            owner_id := t.id },
     { t with resources := { t.resources with shells := t.resources.shells - 1 },
              fire_cooldown := t.fire_rate })

/-- `Tank.take_damage`: subtract armor; `destroy()` when armor falls to ≤ 0
(the armor field itself is not clamped). -/
def Tank.take_damage (t : Tank) (amount : Int) : Tank :=
  let armor := t.resources.armor - amount
  { t with resources := { t.resources with armor := armor },
           alive := if armor ≤ 0 then false else t.alive }

/-- `Tank.resupply`: bounded top-ups toward each maximum (the source's unused
`base` parameter is dropped). -/
def Tank.resupply (t : Tank) : Tank :=
  { t with resources :=
      { t.resources with
        armor := min Config.TANK_MAX_ARMOR (t.resources.armor + 1),
        shells := min Config.TANK_MAX_SHELLS (t.resources.shells + 5),
        mines := min Config.TANK_MAX_MINES (t.resources.mines + 2) } }

/-- `Tank._get_terrain_speed`: the current tile's speed multiplier, except
that deep water without a boat yields 0.  (The source consults only
`game_state.game_map`, so the map is the argument here.) -/
def Tank.get_terrain_speed (m : GameMap) (t : Tank) : ℚ :=
  let tile := m.get_tile (tile_pos t.x) (tile_pos t.y)
  let terrain := TERRAIN_DATA tile
  if (tile = .DEEP_WATER ∨ tile = .RIVER) ∧ t.has_boat = false ∧ tile = .DEEP_WATER
  then 0
  else terrain.speed_multiplier

/-- `Tank._can_move_to`: pixel-bounds check, then terrain passability with the
boat exception for deep water. -/
def Tank.can_move_to (m : GameMap) (t : Tank) (x y : ℚ) : Bool :=
  if x < (t.size : ℚ) ∨ x > (m.pixel_width : ℚ) - (t.size : ℚ) then false
  else if y < (t.size : ℚ) ∨ y > (m.pixel_height : ℚ) - (t.size : ℚ) then false
  else
    let tile := m.get_tile (tile_pos x) (tile_pos y)
    let terrain := TERRAIN_DATA tile
    if terrain.passable = false then
      decide (tile = .DEEP_WATER) && t.has_boat
    else true

/-- `Tank.move_forward`. -/
def Tank.move_forward (env : Env) (m : GameMap) (t : Tank) : Tank :=
  let terrain_speed := t.get_terrain_speed m
  if terrain_speed ≤ 0 then t
  else
    let dx := env.cosD t.angle * t.speed * terrain_speed
    let dy := env.sinD t.angle * t.speed * terrain_speed
    let new_x := t.x + dx
    let new_y := t.y + dy
    if t.can_move_to m new_x new_y then { t with x := new_x, y := new_y, is_moving := true }
    else t

/-- `Tank.move_backward` (backward speed additionally scaled by 0.6). -/
def Tank.move_backward (env : Env) (m : GameMap) (t : Tank) : Tank :=
  let terrain_speed := t.get_terrain_speed m
  if terrain_speed ≤ 0 then t
  else
    let dx := env.cosD t.angle * t.speed * terrain_speed * (6/10)
    let dy := env.sinD t.angle * t.speed * terrain_speed * (6/10)
    let new_x := t.x - dx
    let new_y := t.y - dy
    if t.can_move_to m new_x new_y then { t with x := new_x, y := new_y, is_moving := true }
    else t

/-- `Tank.update`: per-frame cooldown and LGM-respawn ticks (the only state
the source's `Tank.update` touches). -/
def Tank.update (t : Tank) : Tank :=
  let t := if t.fire_cooldown > 0 then { t with fire_cooldown := t.fire_cooldown - 1 } else t
  if t.lgm_respawn_timer > 0 then
    let timer := t.lgm_respawn_timer - 1
    if timer = 0 then { t with lgm_respawn_timer := timer, lgm_deployed := false }
    else { t with lgm_respawn_timer := timer }
  else t

/-! ## Pillbox methods -/

/-- `Pillbox.take_damage`: lose health, gain aggression (capped at 8,
regardless of the attacker); at ≤ 0 health the pillbox is neutralised. -/
def Pillbox.take_damage (p : Pillbox) (amount : Int) : Pillbox :=
  let health := p.health - amount
  let aggression := min 8 (p.aggression + 1)
  if health ≤ 0 then
    { p with health := 0, aggression := aggression, team := .NEUTRAL, active := false }
  else
    { p with health := health, aggression := aggression }

/-- `Pillbox.capture`: new team, half-max health, active, calm. -/
def Pillbox.capture (p : Pillbox) (new_team : Team) : Pillbox :=
  { p with team := new_team, health := Config.PILLBOX_MAX_HEALTH / 2,
           active := true, aggression := 0 }

/-- `Pillbox._find_target`: nearest enemy tank strictly inside `range`
(first-found wins ties; the source compares `sqrt` distances, modelled by the
order-isomorphic squared comparison). -/
def Pillbox.find_target (p : Pillbox) (es : List Entity) : Option Tank :=
  (es.foldl
    (fun best e =>
      match e with
      | .tank t =>
          if t.team ≠ p.team then
            let d2 := (t.x - p.x) * (t.x - p.x) + (t.y - p.y) * (t.y - p.y)
            if sqrt_lt d2 p.range &&
                (match best with
                 | none => true
                 | some pr => decide (d2 < pr.2)) then
              some (t, d2)
            else best
          else best
      | _ => best)
    (none : Option (Tank × ℚ))).map Prod.fst

/-- `Pillbox._fire_at`: aim at the target, set the aggression-adjusted
cooldown, and return the spawned shell (fresh id passed as `next_id`). -/
def Pillbox.fire_at (env : Env) (next_id : Nat) (p : Pillbox) (target : Tank) :
    Shell × Pillbox :=
  let angle := env.atan2D (target.y - p.y) (target.x - p.x)
  let adjusted_rate := max 5 (p.fire_rate - p.aggression * 3)
  ({ id := next_id, x := p.x, y := p.y, angle := angle, team := p.team, owner_id := p.id },
   { p with fire_cooldown := adjusted_rate })

/-! ## Base methods -/

/-- `Base.update`: regeneration countdown and refill. -/
def Base.update (b : Base) : Base :=
  let timer := b.regen_timer - 1
  if timer ≤ 0 then
    { b with regen_timer := Config.BASE_RESUPPLY_RATE,
             shells := min 40 (b.shells + 1),
             mines := min 20 (b.mines + 1),
             armor := min 16 (b.armor + 1) }
  else { b with regen_timer := timer }

/-- `Base.resupply_tank`: prioritized transfer (armor, then shells, then
mines), each capped per tick (1/5/2), by the base's stock and by the tank's
maxima; nothing for a tank of another team.  (The source's Boolean
"any transfer happened" return value is unused by the engine and dropped.) -/
def Base.resupply_tank (b : Base) (t : Tank) : Tank × Base :=
  if t.team ≠ b.team then (t, b)
  else
    let r := t.resources
    let (ra, ba) :=
      if r.armor < Config.TANK_MAX_ARMOR ∧ b.armor > 0 then
        let transfer := min 1 (min b.armor (Config.TANK_MAX_ARMOR - r.armor))
        (r.armor + transfer, b.armor - transfer)
      else (r.armor, b.armor)
    let (rs, bs) :=
      if r.shells < Config.TANK_MAX_SHELLS ∧ b.shells > 0 then
        let transfer := min 5 (min b.shells (Config.TANK_MAX_SHELLS - r.shells))
        (r.shells + transfer, b.shells - transfer)
      else (r.shells, b.shells)
    let (rm, bm) :=
      if r.mines < Config.TANK_MAX_MINES ∧ b.mines > 0 then
        let transfer := min 2 (min b.mines (Config.TANK_MAX_MINES - r.mines))
        (r.mines + transfer, b.mines - transfer)
      else (r.mines, b.mines)
    ({ t with resources := { r with armor := ra, shells := rs, mines := rm } },
     { b with armor := ba, shells := bs, mines := bm })

/-- `Base.capture`: new team, health reset to 8; stocks untouched. -/
def Base.capture (b : Base) (new_team : Team) : Base :=
  { b with team := new_team, health := 8 }

/-! ## Central game state (`GameState`)

The live entity collection and the pending-spawn buffer are the source's
`entities` / `pending_entities` lists.  `next_id` models the process-wide
`Entity._next_id` counter and `rng_idx` the cursor into the random stream. -/

structure GameState where
  game_map : GameMap
  entities : List Entity := []
  pending_entities : List Entity := []
  player : Option Nat := none
  camera_x : ℚ := 0
  camera_y : ℚ := 0
  paused : Bool := false
  game_over : Bool := false
  score : Int := 0
  next_id : Nat := 0
  rng_idx : Nat := 0
deriving DecidableEq, Repr

/-- `GameState.add_entity`: append to the pending-spawn buffer. -/
def GameState.add_entity (st : GameState) (e : Entity) : GameState :=
  { st with pending_entities := st.pending_entities ++ [e] }

/-! ## Per-entity self-update (`Entity.update` implementations)

An entity's `update(game_state)` may mutate the entity itself, damage the
terrain (shells), spawn pending entities and consume randomness (pillboxes);
it never touches the live entity list itself. -/

/-- `Shell.update`: move, age, collide with shot-blocking terrain (damaging it
when destructible), despawn out of pixel bounds. -/
def Shell.update (env : Env) (st : GameState) (s : Shell) : Shell × GameState :=
  let s := { s with x := s.x + env.cosD s.angle * s.speed,
                    y := s.y + env.sinD s.angle * s.speed,
                    lifetime := s.lifetime - 1 }
  if s.lifetime ≤ 0 then ({ s with alive := false }, st)
  else
    let tx := tile_pos s.x
    let ty := tile_pos s.y
    let terrain := TERRAIN_DATA (st.game_map.get_tile tx ty)
    if terrain.blocks_shots then
      let m := if terrain.destructible then st.game_map.damage_tile tx ty else st.game_map
      ({ s with alive := false }, { st with game_map := m })
    else if s.x < 0 ∨ s.x > (st.game_map.pixel_width : ℚ) ∨
            s.y < 0 ∨ s.y > (st.game_map.pixel_height : ℚ) then
      ({ s with alive := false }, st)
    else (s, st)

/-- `Pillbox.update`: cooldown tick, probabilistic aggression decay (one
`random.random()` draw, consumed only when aggression is positive), then
target acquisition and firing into the pending buffer. -/
def Pillbox.update (env : Env) (st : GameState) (p : Pillbox) : Pillbox × GameState :=
  if p.active = false then (p, st)
  else
    let p := if p.fire_cooldown > 0 then { p with fire_cooldown := p.fire_cooldown - 1 } else p
    let roll :=
      if p.aggression > 0 then
        let r := env.rand st.rng_idx
        (if r < 1/100 then { p with aggression := max 0 (p.aggression - 1) } else p,
         { st with rng_idx := st.rng_idx + 1 })
      else (p, st)
    let p := roll.1
    let st := roll.2
    if p.fire_cooldown ≤ 0 then
      match p.find_target st.entities with
      | some target =>
          let fired := p.fire_at env st.next_id target
          (fired.2, { st with pending_entities := st.pending_entities ++ [.shell fired.1],
                              next_id := st.next_id + 1 })
      | none => (p, st)
    else (p, st)

/-- Dynamic dispatch of the per-entity `update` (mines have no self-update;
bases and tanks touch only themselves). -/
def Entity.update (env : Env) (st : GameState) : Entity → Entity × GameState
  | .tank t => (.tank t.update, st)
  | .shell s => let r := s.update env st; (.shell r.1, r.2)
  | .mine m => (.mine m, st)
  | .pillbox p => let r := p.update env st; (.pillbox r.1, r.2)
  | .base b => (.base b.update, st)

/-- One iteration of `for entity in self.entities: entity.update(self)`:
update the entity at index `i` in place. -/
def GameState.update_step (env : Env) (st : GameState) (i : Nat) : GameState :=
  match st.entities[i]? with
  | some e =>
      let r := e.update env st
      { r.2 with entities := r.2.entities.set i r.1 }
  | none => st

/-- The entity self-update phase of a frame, in list order. -/
def GameState.update_phase (env : Env) (st : GameState) : GameState :=
  (List.range st.entities.length).foldl (GameState.update_step env) st

/-- Steps 1–2 of the frame: merge the pending buffer into the live collection
and clear it. -/
def GameState.merge_phase (st : GameState) : GameState :=
  { st with entities := st.entities ++ st.pending_entities, pending_entities := [] }

/-! ## Collision resolution (`GameState._process_collisions`)

Each category is a nested first-match scan over the same (mutated-in-place)
entity list; a hit mutates the target and destroys the projectile/mine, and
`break` stops the inner scan.  Every pass below also returns the list of
`(attacker index, victim index)` damage events it performed, so that the
claims about "each shell damages at most one entity" can be stated; the
returned entity list/map is exactly the source's state change. -/

/-- Inner-loop qualification test of the Shell-vs-Tank category. -/
def shell_tank_hit (s : Shell) : Entity → Bool
  | .tank t =>
      t.alive && decide (t.id ≠ s.owner_id) && decide (t.team ≠ s.team) &&
        dist_lt (s.x - t.x) (s.y - t.y) ((t.size : ℚ) + (s.radius : ℚ))
  | _ => false

/-- One outer-loop iteration of the Shell-vs-Tank category: if index `i`
holds a live shell, damage the first qualifying tank and destroy the shell. -/
def shell_tank_step (es : List Entity) (i : Nat) : List Entity × List (Nat × Nat) :=
  match es[i]? with
  | some (.shell s) =>
      if s.alive then
        match es.findIdx? (shell_tank_hit s) with
        | some j =>
            match es[j]? with
            | some (.tank t) =>
                ((es.set j (.tank (t.take_damage s.damage))).set i
                   (.shell { s with alive := false }),
                 [(i, j)])
            | _ => (es, [])
        | none => (es, [])
      else (es, [])
  | _ => (es, [])

/-- The Shell-vs-Tank outer loop over a list of indices. -/
def shell_tank_loop : List Entity → List Nat → List Entity × List (Nat × Nat)
  | es, [] => (es, [])
  | es, i :: rest =>
      let r := shell_tank_step es i
      let rr := shell_tank_loop r.1 rest
      (rr.1, r.2 ++ rr.2)

/-- The full Shell-vs-Tank category pass. -/
def shell_tank_pass (es : List Entity) : List Entity × List (Nat × Nat) :=
  shell_tank_loop es (List.range es.length)

/-- Inner-loop qualification test of the Shell-vs-Pillbox category. -/
def shell_pillbox_hit (s : Shell) : Entity → Bool
  | .pillbox p =>
      p.alive && p.active && decide (p.team ≠ s.team) &&
        dist_lt (s.x - p.x) (s.y - p.y) ((p.size : ℚ) + (s.radius : ℚ))
  | _ => false

/-- One outer-loop iteration of the Shell-vs-Pillbox category. -/
def shell_pillbox_step (es : List Entity) (i : Nat) : List Entity × List (Nat × Nat) :=
  match es[i]? with
  | some (.shell s) =>
      if s.alive then
        match es.findIdx? (shell_pillbox_hit s) with
        | some j =>
            match es[j]? with
            | some (.pillbox p) =>
                ((es.set j (.pillbox (p.take_damage s.damage))).set i
                   (.shell { s with alive := false }),
                 [(i, j)])
            | _ => (es, [])
        | none => (es, [])
      else (es, [])
  | _ => (es, [])

/-- The Shell-vs-Pillbox outer loop. -/
def shell_pillbox_loop : List Entity → List Nat → List Entity × List (Nat × Nat)
  | es, [] => (es, [])
  | es, i :: rest =>
      let r := shell_pillbox_step es i
      let rr := shell_pillbox_loop r.1 rest
      (rr.1, r.2 ++ rr.2)

/-- The full Shell-vs-Pillbox category pass. -/
def shell_pillbox_pass (es : List Entity) : List Entity × List (Nat × Nat) :=
  shell_pillbox_loop es (List.range es.length)

/-- Inner-loop qualification test of the Tank-vs-Mine category. -/
def mine_tank_hit (mn : Mine) : Entity → Bool
  | .tank t =>
      t.alive && decide (t.team ≠ mn.team) &&
        dist_lt (mn.x - t.x) (mn.y - t.y) ((t.size : ℚ) + (mn.radius : ℚ))
  | _ => false

/-- One outer-loop iteration of the Tank-vs-Mine category: damage the first
qualifying tank, then `Mine.detonate` (crater the mine's tile, die). -/
def tank_mine_step (es : List Entity) (m : GameMap) (i : Nat) :
    List Entity × GameMap :=
  match es[i]? with
  | some (.mine mn) =>
      if mn.alive then
        match es.findIdx? (mine_tank_hit mn) with
        | some j =>
            match es[j]? with
            | some (.tank t) =>
                ((es.set j (.tank (t.take_damage mn.damage))).set i
                   (.mine { mn with alive := false }),
                 m.set_tile (tile_pos mn.x) (tile_pos mn.y) .CRATER)
            | _ => (es, m)
        | none => (es, m)
      else (es, m)
  | _ => (es, m)

/-- The Tank-vs-Mine outer loop. -/
def tank_mine_loop : List Entity → GameMap → List Nat → List Entity × GameMap
  | es, m, [] => (es, m)
  | es, m, i :: rest =>
      let r := tank_mine_step es m i
      tank_mine_loop r.1 r.2 rest

/-- The full Tank-vs-Mine category pass. -/
def tank_mine_pass (es : List Entity) (m : GameMap) : List Entity × GameMap :=
  tank_mine_loop es m (List.range es.length)

/-- The Tank-vs-Base contact resolution for one (tank, base) pair: on
overlap, a same-team base resupplies the tank, a NEUTRAL base is captured,
and an enemy-owned base does nothing. -/
def tank_base_contact (t : Tank) (b : Base) : Tank × Base :=
  if dist_lt (t.x - b.x) (t.y - b.y) ((t.size : ℚ) + (b.size : ℚ)) then
    if b.team = t.team then b.resupply_tank t
    else if b.team = Team.NEUTRAL then (t, b.capture t.team)
    else (t, b)
  else (t, b)

/-- One inner-loop iteration of the Tank-vs-Base category (no `break` in the
source: a tank meets every base; the tank's mutated resources are re-read). -/
def tank_base_inner (es : List Entity) (i j : Nat) : List Entity :=
  match es[i]?, es[j]? with
  | some (.tank t), some (.base b) =>
      let r := tank_base_contact t b
      (es.set i (.tank r.1)).set j (.base r.2)
  | _, _ => es

/-- One outer-loop iteration of the Tank-vs-Base category. -/
def tank_base_step (es : List Entity) (i : Nat) : List Entity :=
  match es[i]? with
  | some (.tank t) =>
      if t.alive then (List.range es.length).foldl (fun acc j => tank_base_inner acc i j) es
      else es
  | _ => es

/-- The Tank-vs-Base outer loop. -/
def tank_base_loop : List Entity → List Nat → List Entity
  | es, [] => es
  | es, i :: rest => tank_base_loop (tank_base_step es i) rest

/-- The full Tank-vs-Base category pass. -/
def tank_base_pass (es : List Entity) : List Entity :=
  tank_base_loop es (List.range es.length)

/-- `GameState._process_collisions`: the four categories in their fixed
order — Shell-Tank, Shell-Pillbox, Tank-Mine, Tank-Base. -/
def process_collisions (es : List Entity) (m : GameMap) : List Entity × GameMap :=
  let r1 := shell_tank_pass es
  let r2 := shell_pillbox_pass r1.1
  let r3 := tank_mine_pass r2.1 m
  (tank_base_pass r3.1, r3.2)

/-! ## The frame pipeline (`GameState.update`) -/

/-- `GameState._update_camera`: exponential follow of the player (looked up
by id in the live collection, standing for the source's object reference),
clamped to the map's pixel bounds. -/
def GameState.update_camera (st : GameState) : GameState :=
  match st.player with
  | none => st
  | some pid =>
      match st.entities.findIdx? (fun e => e.eid == pid) with
      | some i =>
          match st.entities[i]? with
          | some (.tank t) =>
              if t.alive then
                let target_x := t.x - (Config.WINDOW_WIDTH / 2 : Int)
                let target_y := t.y - (Config.WINDOW_HEIGHT / 2 : Int)
                let cx := st.camera_x + (target_x - st.camera_x) * (1/10)
                let cy := st.camera_y + (target_y - st.camera_y) * (1/10)
                { st with
                  camera_x := max 0 (min ((st.game_map.pixel_width : ℚ) - (Config.WINDOW_WIDTH : ℚ)) cx),
                  camera_y := max 0 (min ((st.game_map.pixel_height : ℚ) - (Config.WINDOW_HEIGHT : ℚ)) cy) }
              else st
          | _ => st
      | none => st

/-- The body of a non-paused frame: merge pending spawns, self-update every
entity, resolve collisions, purge the dead, follow the camera. -/
def GameState.run_frame (env : Env) (st : GameState) : GameState :=
  let st := st.merge_phase
  let st := st.update_phase env
  let pc := process_collisions st.entities st.game_map
  let st := { st with entities := pc.1.filter Entity.is_alive, game_map := pc.2 }
  st.update_camera

/-- `GameState.update`: one frame of game logic (no-op when paused or over). -/
def GameState.update (env : Env) (st : GameState) : GameState :=
  if st.paused || st.game_over then st else st.run_frame env

/-! ## General helper lemmas -/

theorem findIdx?_some_sat {α : Type} {p : α → Bool} {l : List α} {j : Nat}
    (h : l.findIdx? p = some j) : ∃ a, l[j]? = some a ∧ p a = true := by
  rw [List.findIdx?_eq_some_iff_findIdx_eq] at h
  obtain ⟨hlt, hidx⟩ := h
  subst hidx
  exact ⟨l[l.findIdx p], List.getElem?_eq_getElem hlt, List.findIdx_getElem⟩

/-! ## Claim C4: pillbox damage and capture -/

/-- C4: `Pillbox.take_damage n` (any `n ≥ 1`) raises aggression by exactly 1,
capped at 8, with no team check; when health falls to ≤ 0 the health is
clamped to 0, the team becomes NEUTRAL and `active` becomes false (otherwise
team and `active` are untouched); and `Pillbox.capture t` sets the team to
`t`, health to half the maximum (8), `active` to true and aggression to 0. -/
theorem C4_pillbox_damage_and_capture (p : Pillbox) (n : Int) (hn : 1 ≤ n) :
    (p.take_damage n).aggression = min 8 (p.aggression + 1) ∧
    (p.health - n ≤ 0 →
      (p.take_damage n).health = 0 ∧ (p.take_damage n).team = .NEUTRAL ∧
        (p.take_damage n).active = false) ∧
    (0 < p.health - n →
      (p.take_damage n).health = p.health - n ∧ (p.take_damage n).team = p.team ∧
        (p.take_damage n).active = p.active) ∧
    (∀ tm : Team, p.capture tm =
      { p with team := tm, health := 8, active := true, aggression := 0 }) := by
  refine ⟨?_, fun h => ?_, fun h => ?_, fun tm => rfl⟩
  · unfold Pillbox.take_damage
    rcases le_or_lt (p.health - n) 0 with hh | hh
    · rw [if_pos hh]
    · rw [if_neg (by omega)]
  · unfold Pillbox.take_damage
    rw [if_pos h]
    exact ⟨rfl, rfl, rfl⟩
  · unfold Pillbox.take_damage
    rw [if_neg (by omega)]
    exact ⟨rfl, rfl, rfl⟩

/-- A sample pillbox for evaluating C4. -/
def pb4 : Pillbox := { id := 7, x := 0, y := 0, team := .TEAM_2, health := 1, aggression := 8 }

/-- C4 at a concrete input: one point of damage to a 1-health pillbox with
aggression already at the cap neutralises and deactivates it. -/
theorem C4_witness :
    (pb4.take_damage 1).aggression = min 8 (pb4.aggression + 1) ∧
    (pb4.take_damage 1).health = 0 ∧ (pb4.take_damage 1).team = .NEUTRAL ∧
      (pb4.take_damage 1).active = false := by
  have h := C4_pillbox_damage_and_capture pb4 1 (by decide)
  exact ⟨h.1, h.2.1 (by decide)⟩

/-! ## Claim C5: firing a shell -/

/-- C5: `Tank.fire` returns no shell and leaves the tank unchanged when on
cooldown or out of shells; otherwise it decrements the shell stock by 1,
resets the cooldown to the tank's fire rate, and returns a shell at the
cannon tip (tank position offset along the facing angle by `size + 8`) with
the tank's team and the tank's id as owner. -/
theorem C5_tank_fire (env : Env) (next_id : Nat) (t : Tank) :
    (t.fire_cooldown > 0 ∨ t.resources.shells ≤ 0 →
      t.fire env next_id = (none, t)) ∧
    (¬ (t.fire_cooldown > 0 ∨ t.resources.shells ≤ 0) →
      t.fire env next_id =
        (some { id := next_id,
                x := t.x + env.cosD t.angle * ((t.size : ℚ) + 8),
                y := t.y + env.sinD t.angle * ((t.size : ℚ) + 8),
                angle := t.angle, team := t.team, owner_id := t.id },
         { t with resources := { t.resources with shells := t.resources.shells - 1 },
                  fire_cooldown := t.fire_rate })) := by
  constructor
  · intro h
    unfold Tank.fire
    rw [if_pos h]
  · intro h
    unfold Tank.fire
    rw [if_neg h]

/-- A sample environment (one interpretation of the trigonometry/RNG). -/
def env0 : Env := ⟨fun _ => 1, fun _ => 0, fun _ _ => 0, fun _ => 1⟩

/-- A tank with no shells left, and one ready to fire. -/
def tank5a : Tank := { id := 3, x := 0, y := 0, team := .TEAM_1,
                       resources := { shells := 0 } }

def tank5b : Tank := { id := 4, x := 16, y := 16, team := .TEAM_2 }

/-- C5 at concrete inputs: the empty tank fires nothing and is unchanged; the
ready tank spends one shell and spawns an owned shell at the cannon tip. -/
theorem C5_witness :
    tank5a.fire env0 9 = (none, tank5a) ∧
    tank5b.fire env0 9 =
      (some { id := 9, x := tank5b.x + env0.cosD tank5b.angle * ((tank5b.size : ℚ) + 8),
              y := tank5b.y + env0.sinD tank5b.angle * ((tank5b.size : ℚ) + 8),
              angle := tank5b.angle, team := tank5b.team, owner_id := tank5b.id },
       { tank5b with
           resources := { tank5b.resources with shells := tank5b.resources.shells - 1 },
           fire_cooldown := tank5b.fire_rate }) :=
  ⟨(C5_tank_fire env0 9 tank5a).1 (Or.inr (by decide)),
   (C5_tank_fire env0 9 tank5b).2 (by decide)⟩

/-! ## Claim C10: deep water immobilises even a boat-holding tank -/

/-- C10: a tank standing on a DEEP_WATER tile cannot move at all — even with
`has_boat` set, `_get_terrain_speed` falls through to deep water's 0.0 speed
multiplier, so `move_forward`/`move_backward` return before computing a
candidate position; and `_can_move_to` admits an impassable destination tile
only when it is DEEP_WATER and the tank holds a boat. -/
theorem C10_deep_water_blocks_movement (env : Env) (m : GameMap) (t : Tank)
    (h : m.get_tile (tile_pos t.x) (tile_pos t.y) = .DEEP_WATER) :
    t.move_forward env m = t ∧ t.move_backward env m = t ∧
    (∀ x y : ℚ, t.can_move_to m x y = true →
      (TERRAIN_DATA (m.get_tile (tile_pos x) (tile_pos y))).passable = true ∨
        (m.get_tile (tile_pos x) (tile_pos y) = .DEEP_WATER ∧ t.has_boat = true)) := by
  have hspeed : t.get_terrain_speed m = 0 := by
    unfold Tank.get_terrain_speed
    rw [h]
    rcases hb : t.has_boat with _ | _
    · simp [hb]
    · simp [hb, TERRAIN_DATA]
  refine ⟨?_, ?_, ?_⟩
  · unfold Tank.move_forward
    rw [hspeed]
    simp
  · unfold Tank.move_backward
    rw [hspeed]
    simp
  · intro x y hc
    unfold Tank.can_move_to at hc
    split_ifs at hc
    simpa using hc

/-- A 1×1 all-deep-water map and a boat-holding tank standing on it. -/
def map10 : GameMap := ⟨1, 1, [[.DEEP_WATER]], true⟩

def tank10 : Tank := { id := 1, x := 8, y := 8, team := .TEAM_1, has_boat := true }

/-- C10 at a concrete input: the boat-holding tank on deep water stays put. -/
theorem C10_witness :
    tank10.move_forward env0 map10 = tank10 ∧ tank10.move_backward env0 map10 = tank10 := by
  have h := C10_deep_water_blocks_movement env0 map10 tank10
    (of_decide_eq_true (by with_unfolding_all rfl))
  exact ⟨h.1, h.2.1⟩

/-! ## Claim C3: tank-base contact resolution -/

/-- C3: on overlap, a same-team base performs the prioritized resupply
(armor before shells before mines, per-tick caps 1/5/2, bounded by the base's
stock and the tank's maxima 8/40/40, team and stocks otherwise untouched); a
NEUTRAL base of another team is captured by the tank's team (health reset to
8, stocks untouched); an enemy-owned non-NEUTRAL base changes nothing. -/
theorem C3_tank_base_contact_resolution (t : Tank) (b : Base)
    (hover : dist_lt (t.x - b.x) (t.y - b.y) ((t.size : ℚ) + (b.size : ℚ)) = true) :
    (b.team = t.team →
      tank_base_contact t b = b.resupply_tank t ∧
      ((b.resupply_tank t).1.resources.armor =
          t.resources.armor +
            (if t.resources.armor < 8 ∧ b.armor > 0 then
              min 1 (min b.armor (8 - t.resources.armor)) else 0) ∧
        (b.resupply_tank t).2.armor =
          b.armor -
            (if t.resources.armor < 8 ∧ b.armor > 0 then
              min 1 (min b.armor (8 - t.resources.armor)) else 0)) ∧
      ((b.resupply_tank t).1.resources.shells =
          t.resources.shells +
            (if t.resources.shells < 40 ∧ b.shells > 0 then
              min 5 (min b.shells (40 - t.resources.shells)) else 0) ∧
        (b.resupply_tank t).2.shells =
          b.shells -
            (if t.resources.shells < 40 ∧ b.shells > 0 then
              min 5 (min b.shells (40 - t.resources.shells)) else 0)) ∧
      ((b.resupply_tank t).1.resources.mines =
          t.resources.mines +
            (if t.resources.mines < 40 ∧ b.mines > 0 then
              min 2 (min b.mines (40 - t.resources.mines)) else 0) ∧
        (b.resupply_tank t).2.mines =
          b.mines -
            (if t.resources.mines < 40 ∧ b.mines > 0 then
              min 2 (min b.mines (40 - t.resources.mines)) else 0)) ∧
      (b.resupply_tank t).2.team = b.team ∧ (b.resupply_tank t).1.team = t.team) ∧
    (b.team = .NEUTRAL → b.team ≠ t.team →
      tank_base_contact t b = (t, b.capture t.team) ∧
      b.capture t.team = { b with team := t.team, health := 8 }) ∧
    (b.team ≠ t.team → b.team ≠ .NEUTRAL → tank_base_contact t b = (t, b)) := by
  refine ⟨fun hteam => ?_, fun hneu hne => ?_, fun hne hnneu => ?_⟩
  · have hcontact : tank_base_contact t b = b.resupply_tank t := by
      unfold tank_base_contact
      rw [hover]
      simp [hteam]
    refine ⟨hcontact, ?_⟩
    unfold Base.resupply_tank
    rw [if_neg (by simp [hteam])]
    simp only [Config.TANK_MAX_ARMOR, Config.TANK_MAX_SHELLS, Config.TANK_MAX_MINES]
    split_ifs <;> simp_all
  · constructor
    · unfold tank_base_contact
      rw [hover, if_pos rfl, if_neg hne, if_pos hneu]
    · rfl
  · unfold tank_base_contact
    rw [hover, if_pos rfl, if_neg hne, if_neg hnneu]

/-- The spec's C3 scenario: a team-1 base with armor stock 8 and a team-1
tank with armor 5 and full shells/mines, in contact. -/
def tank3 : Tank := { id := 2, x := 0, y := 0, team := .TEAM_1,
                      resources := { armor := 5 } }

def base3 : Base := { id := 5, x := 0, y := 0, team := .TEAM_1 }

/-- C3 at the spec's concrete scenario: one contact resolution leaves the
tank with armor 6 and the base with armor stock 7 (shells/mines untouched,
tank already full). -/
theorem C3_witness :
    tank_base_contact tank3 base3 = base3.resupply_tank tank3 ∧
    (base3.resupply_tank tank3).1.resources.armor = 6 ∧
    (base3.resupply_tank tank3).2.armor = 7 ∧
    (base3.resupply_tank tank3).1.resources.shells = 40 ∧
    (base3.resupply_tank tank3).2.shells = 20 ∧
    (base3.resupply_tank tank3).1.resources.mines = 40 ∧
    (base3.resupply_tank tank3).2.mines = 10 := by
  refine ⟨((C3_tank_base_contact_resolution tank3 base3
      (of_decide_eq_true (by with_unfolding_all rfl))).1 rfl).1,
    ?_, ?_, ?_, ?_, ?_, ?_⟩ <;> exact of_decide_eq_true (by with_unfolding_all rfl)

/-! ## Claim C6: tank resources never exceed their maxima -/

/-- One engine call that touches a tank's resource bundle: `Tank.fire`,
`Tank.take_damage` (the engine's damage amounts are the nonnegative constants
`SHELL_DAMAGE`/`MINE_DAMAGE`), `Tank.resupply`, or `Base.resupply_tank` from
an arbitrary base. -/
inductive TankAction
  | fire
  | take_damage (n : Nat)
  | resupply
  | base_resupply (b : Base)

/-- Apply one action to the tank (the id handed to `fire` is irrelevant to
the tank's own state). -/
def TankAction.apply (env : Env) (t : Tank) : TankAction → Tank
  | .fire => (t.fire env 0).2
  | .take_damage n => t.take_damage n
  | .resupply => t.resupply
  | .base_resupply b => (b.resupply_tank t).1

/-- Run a finite sequence of resource-touching calls. -/
def run_actions (env : Env) : Tank → List TankAction → Tank
  | t, [] => t
  | t, a :: rest => run_actions env (a.apply env t) rest

/-- The configured maxima of C6: armor ≤ 8, shells ≤ 40, mines ≤ 40. -/
def res_bounded (t : Tank) : Prop :=
  t.resources.armor ≤ Config.TANK_MAX_ARMOR ∧
  t.resources.shells ≤ Config.TANK_MAX_SHELLS ∧
  t.resources.mines ≤ Config.TANK_MAX_MINES

instance (t : Tank) : Decidable (res_bounded t) := by
  unfold res_bounded
  infer_instance

theorem apply_action_bounded (env : Env) (a : TankAction) (t : Tank)
    (h : res_bounded t) : res_bounded (a.apply env t) := by
  obtain ⟨h1, h2, h3⟩ := h
  unfold res_bounded at *
  simp only [Config.TANK_MAX_ARMOR, Config.TANK_MAX_SHELLS, Config.TANK_MAX_MINES] at *
  cases a with
  | fire =>
      unfold TankAction.apply Tank.fire
      by_cases hc : t.fire_cooldown > 0 ∨ t.resources.shells ≤ 0
      · rw [if_pos hc]
        exact ⟨h1, h2, h3⟩
      · rw [if_neg hc]
        refine ⟨h1, ?_, h3⟩
        simp
        omega
  | take_damage n =>
      unfold TankAction.apply Tank.take_damage
      refine ⟨?_, h2, h3⟩
      simp
      omega
  | resupply =>
      unfold TankAction.apply Tank.resupply
      simp only [Config.TANK_MAX_ARMOR, Config.TANK_MAX_SHELLS, Config.TANK_MAX_MINES]
      refine ⟨?_, ?_, ?_⟩ <;> simp <;> omega
  | base_resupply b =>
      unfold TankAction.apply Base.resupply_tank
      simp only [Config.TANK_MAX_ARMOR, Config.TANK_MAX_SHELLS, Config.TANK_MAX_MINES]
      by_cases hc : t.team ≠ b.team
      · rw [if_pos hc]
        exact ⟨h1, h2, h3⟩
      · rw [if_neg hc]
        split_ifs <;> refine ⟨?_, ?_, ?_⟩ <;> simp <;> omega

/-- C6: a tank whose armor/shells/mines start at or below the configured
maxima (8/40/40) keeps them at or below those maxima after any finite
sequence of `Tank.fire`, `Tank.take_damage`, `Tank.resupply` and
`Base.resupply_tank` calls. -/
theorem C6_resource_maxima (env : Env) (acts : List TankAction) (t : Tank)
    (h : res_bounded t) : res_bounded (run_actions env t acts) := by
  induction acts generalizing t with
  | nil => exact h
  | cons a rest ih => exact ih _ (apply_action_bounded env a t h)

/-- A full-stock tank and a sequence exercising every action constructor. -/
def tank6 : Tank := { id := 6, x := 0, y := 0, team := .TEAM_1 }

def acts6 : List TankAction :=
  [.fire, .take_damage 4, .base_resupply base3, .resupply, .base_resupply base3,
   .resupply, .resupply, .take_damage 1, .fire, .resupply]

/-- C6 at a concrete input. -/
theorem C6_witness : res_bounded (run_actions env0 tank6 acts6) :=
  C6_resource_maxima env0 acts6 tank6 (by decide)

/-! ## Collision-pass lemmas for C1

`shell_tank_step`/`shell_pillbox_step` write at most two indices: the shell's
own (destroyed) and the victim's (damaged); everything else is untouched.
The `_rel` lemmas capture this, and the loop lemmas lift it to whole passes. -/

theorem getElem?_some_lt {α : Type} {l : List α} {i : Nat} {a : α}
    (h : l[i]? = some a) : i < l.length := by
  obtain ⟨hlt, -⟩ := List.getElem?_eq_some.mp h
  exact hlt

theorem shell_alive_false_eq (s : Shell) (h : s.alive = false) :
    { s with alive := false } = s := by
  cases s
  simp_all

/-- What one Shell-vs-Tank outer iteration does to an arbitrary index. -/
theorem shell_tank_step_rel (es : List Entity) (i n : Nat) :
    (shell_tank_step es i).1[n]? = es[n]? ∨
    (∃ t am, es[n]? = some (.tank t) ∧
      (shell_tank_step es i).1[n]? = some (.tank (t.take_damage am))) ∨
    (∃ s, es[n]? = some (.shell s) ∧
      (shell_tank_step es i).1[n]? = some (.shell { s with alive := false })) := by
  unfold shell_tank_step
  split
  case _ s hi =>
    split
    case isTrue hs =>
      split
      case _ j hj =>
        split
        case _ t ht =>
          have hij : i ≠ j := by
            intro h
            rw [h, ht] at hi
            simp at hi
          have hiL : i < es.length := getElem?_some_lt hi
          have hjL : j < es.length := getElem?_some_lt ht
          rcases eq_or_ne n i with rfl | hni
          · right; right
            refine ⟨s, hi, ?_⟩
            simp only
            rw [List.getElem?_set_self (by simpa using hiL)]
          · rcases eq_or_ne n j with rfl | hnj
            · right; left
              refine ⟨t, s.damage, ht, ?_⟩
              simp only
              rw [List.getElem?_set_ne (fun h => hni h.symm),
                  List.getElem?_set_self hjL]
            · left
              simp only
              rw [List.getElem?_set_ne (fun h => hni h.symm),
                  List.getElem?_set_ne (fun h => hnj h.symm)]
        case _ => left; rfl
      case _ => left; rfl
    case isFalse hs => left; rfl
  case _ => left; rfl

/-- A dead shell makes its outer iteration a no-op. -/
theorem shell_tank_step_dead (es : List Entity) (i : Nat) (s : Shell)
    (hi : es[i]? = some (.shell s)) (hd : s.alive = false) :
    shell_tank_step es i = (es, []) := by
  unfold shell_tank_step
  rw [hi]
  simp [hd]

/-- Every event of one Shell-vs-Tank outer iteration: its source is `i`, the
source is a live shell, the victim is a tank qualifying under
`shell_tank_hit`, and the shell ends the iteration destroyed. -/
theorem shell_tank_step_events (es : List Entity) (i : Nat) :
    ∀ ev ∈ (shell_tank_step es i).2, ev.1 = i ∧
      ∃ s t, es[i]? = some (.shell s) ∧ s.alive = true ∧
        es[ev.2]? = some (.tank t) ∧ shell_tank_hit s (.tank t) = true ∧
        (shell_tank_step es i).1[i]? = some (.shell { s with alive := false }) := by
  intro ev hev
  unfold shell_tank_step at hev
  split at hev
  case _ s hi =>
    split at hev
    case isTrue hs =>
      split at hev
      case _ j hj =>
        split at hev
        case _ t ht =>
          simp only [List.mem_singleton] at hev
          subst hev
          have hij : i ≠ j := by
            intro h
            rw [h, ht] at hi
            simp at hi
          have hiL : i < es.length := getElem?_some_lt hi
          obtain ⟨a, haj, hhit⟩ := findIdx?_some_sat hj
          have ha : a = .tank t := by
            rw [haj] at ht
            exact Option.some.inj ht
          subst ha
          refine ⟨rfl, s, t, hi, hs, ht, hhit, ?_⟩
          have hstep : shell_tank_step es i =
              ((es.set j (.tank (t.take_damage s.damage))).set i
                 (.shell { s with alive := false }), [(i, j)]) := by
            unfold shell_tank_step
            rw [hi]
            simp [hs, hj, ht]
          rw [hstep]
          exact List.getElem?_set_self (by simpa using hiL)
        case _ => simp at hev
      case _ => simp at hev
    case isFalse => simp at hev
  case _ => simp at hev

/-- One Shell-vs-Tank iteration, read backward at a tank of its result. -/
theorem shell_tank_step_tank_back (es : List Entity) (i n : Nat) (t2 : Tank)
    (h : (shell_tank_step es i).1[n]? = some (.tank t2)) :
    ∃ t1 : Tank, es[n]? = some (.tank t1) ∧ t1.id = t2.id ∧ t1.team = t2.team := by
  rcases shell_tank_step_rel es i n with hrel | ⟨t0, am, h0, hres⟩ | ⟨s0, h0, hres⟩
  · exact ⟨t2, hrel.symm.trans h, rfl, rfl⟩
  · have he : Entity.tank t2 = Entity.tank (t0.take_damage am) :=
      Option.some.inj (h.symm.trans hres)
    have ht2 : t2 = t0.take_damage am := by injection he
    subst ht2
    exact ⟨t0, h0, rfl, rfl⟩
  · have := Option.some.inj (h.symm.trans hres)
    simp at this

/-- One Shell-vs-Tank iteration, read backward at a shell of its result. -/
theorem shell_tank_step_shell_back (es : List Entity) (i n : Nat) (s2 : Shell)
    (h : (shell_tank_step es i).1[n]? = some (.shell s2)) :
    ∃ s1 : Shell, es[n]? = some (.shell s1) ∧
      s1.owner_id = s2.owner_id ∧ s1.team = s2.team := by
  rcases shell_tank_step_rel es i n with hrel | ⟨t0, am, h0, hres⟩ | ⟨s0, h0, hres⟩
  · exact ⟨s2, hrel.symm.trans h, rfl, rfl⟩
  · have := Option.some.inj (h.symm.trans hres)
    simp at this
  · have he : Entity.shell s2 = Entity.shell { s0 with alive := false } :=
      Option.some.inj (h.symm.trans hres)
    have hs2 : s2 = { s0 with alive := false } := by injection he
    subst hs2
    exact ⟨s0, h0, rfl, rfl⟩

/-- One Shell-vs-Tank iteration, read backward at a pillbox of its result. -/
theorem shell_tank_step_pill_back (es : List Entity) (i n : Nat) (p : Pillbox)
    (h : (shell_tank_step es i).1[n]? = some (.pillbox p)) :
    es[n]? = some (.pillbox p) := by
  rcases shell_tank_step_rel es i n with hrel | ⟨t0, am, h0, hres⟩ | ⟨s0, h0, hres⟩
  · exact hrel.symm.trans h
  · have := Option.some.inj (h.symm.trans hres)
    simp at this
  · have := Option.some.inj (h.symm.trans hres)
    simp at this

/-- Tanks keep their id and team through a whole Shell-vs-Tank pass
(read off the pass's result). -/
theorem shell_tank_loop_tank_back (is : List Nat) (es : List Entity) (n : Nat)
    (t2 : Tank) (h : (shell_tank_loop es is).1[n]? = some (.tank t2)) :
    ∃ t1 : Tank, es[n]? = some (.tank t1) ∧ t1.id = t2.id ∧ t1.team = t2.team := by
  induction is generalizing es with
  | nil => exact ⟨t2, h, rfl, rfl⟩
  | cons i0 rest ih =>
      simp only [shell_tank_loop] at h
      obtain ⟨tm, hm, hid, hteam⟩ := ih (shell_tank_step es i0).1 h
      obtain ⟨t1, h1, hid1, hteam1⟩ := shell_tank_step_tank_back es i0 n tm hm
      exact ⟨t1, h1, hid1.trans hid, hteam1.trans hteam⟩

/-- Shells keep their owner and team through a whole Shell-vs-Tank pass. -/
theorem shell_tank_loop_shell_back (is : List Nat) (es : List Entity) (n : Nat)
    (s2 : Shell) (h : (shell_tank_loop es is).1[n]? = some (.shell s2)) :
    ∃ s1 : Shell, es[n]? = some (.shell s1) ∧
      s1.owner_id = s2.owner_id ∧ s1.team = s2.team := by
  induction is generalizing es with
  | nil => exact ⟨s2, h, rfl, rfl⟩
  | cons i0 rest ih =>
      simp only [shell_tank_loop] at h
      obtain ⟨sm, hm, hown, hteam⟩ := ih (shell_tank_step es i0).1 h
      obtain ⟨s1, h1, hown1, hteam1⟩ := shell_tank_step_shell_back es i0 n sm hm
      exact ⟨s1, h1, hown1.trans hown, hteam1.trans hteam⟩

/-- Pillboxes are untouched by a Shell-vs-Tank pass (read off the result). -/
theorem shell_tank_loop_pill_back (is : List Nat) (es : List Entity) (n : Nat)
    (p : Pillbox) (h : (shell_tank_loop es is).1[n]? = some (.pillbox p)) :
    es[n]? = some (.pillbox p) := by
  induction is generalizing es with
  | nil => exact h
  | cons i0 rest ih =>
      simp only [shell_tank_loop] at h
      exact shell_tank_step_pill_back es i0 n p (ih (shell_tank_step es i0).1 h)

/-- A shell already destroyed stays, byte for byte, where it is through a
Shell-vs-Tank pass. -/
theorem shell_tank_loop_dead_shell (is : List Nat) (es : List Entity) (n : Nat)
    (s : Shell) (h : es[n]? = some (.shell s)) (hd : s.alive = false) :
    (shell_tank_loop es is).1[n]? = some (.shell s) := by
  induction is generalizing es with
  | nil => exact h
  | cons i0 rest ih =>
      simp only [shell_tank_loop]
      refine ih (shell_tank_step es i0).1 ?_
      rcases shell_tank_step_rel es i0 n with hrel | ⟨t0, am, h0, hres⟩ | ⟨s0, h0, hres⟩
      · rw [hrel, h]
      · rw [h0] at h
        simp at h
      · rw [h0] at h
        have hs := Option.some.inj h
        have hs0 : s0 = s := by
          injection hs
        subst hs0
        rw [hres, shell_alive_false_eq s0 hd]

/-- One Shell-vs-Tank outer iteration emits no event or exactly one, sourced
at its own index. -/
theorem shell_tank_step_events_shape (es : List Entity) (i : Nat) :
    (shell_tank_step es i).2 = [] ∨ ∃ j, (shell_tank_step es i).2 = [(i, j)] := by
  unfold shell_tank_step
  split
  · split
    · split
      · split
        · right
          exact ⟨_, rfl⟩
        · left
          rfl
      · left
        rfl
    · left
      rfl
  · left
    rfl

/-- Sources of Shell-vs-Tank events lie in the iterated index list, each at
most as often as the index itself occurs. -/
theorem shell_tank_loop_countP (is : List Nat) (es : List Entity) (i0 : Nat) :
    (shell_tank_loop es is).2.countP (fun ev => ev.1 == i0) ≤ is.count i0 := by
  induction is generalizing es with
  | nil => simp [shell_tank_loop]
  | cons i rest ih =>
      simp only [shell_tank_loop, List.countP_append, List.count_cons]
      have hhead : (shell_tank_step es i).2.countP (fun ev => ev.1 == i0) ≤
          (if (i == i0) = true then 1 else 0) := by
        rcases shell_tank_step_events_shape es i with hs | ⟨j, hs⟩
        · simp [hs]
        · rw [hs]
          simp only [List.countP_cons, List.countP_nil]
          split <;> simp_all
      calc (shell_tank_step es i).2.countP (fun ev => ev.1 == i0) +
            ((shell_tank_loop (shell_tank_step es i).1 rest).2.countP (fun ev => ev.1 == i0))
          ≤ (if (i == i0) = true then 1 else 0) + rest.count i0 :=
            Nat.add_le_add hhead (ih _)
        _ = rest.count i0 + (if (i == i0) = true then 1 else 0) := Nat.add_comm _ _

/-- Every Shell-vs-Tank event names a shell index and a tank index of the
pass's input list, with the self-hit and friendly-fire exclusions holding
there. -/
theorem shell_tank_loop_event_excl (is : List Nat) (es : List Entity)
    (i j : Nat) (hmem : (i, j) ∈ (shell_tank_loop es is).2) :
    ∃ s t, es[i]? = some (.shell s) ∧ es[j]? = some (.tank t) ∧
      t.id ≠ s.owner_id ∧ t.team ≠ s.team := by
  induction is generalizing es with
  | nil => simp [shell_tank_loop] at hmem
  | cons i0 rest ih =>
      simp only [shell_tank_loop, List.mem_append] at hmem
      rcases hmem with hmem | hmem
      · obtain ⟨hsrc, s, t, hi, hs, ht, hhit, -⟩ := shell_tank_step_events es i0 (i, j) hmem
        simp only at hsrc
        subst hsrc
        unfold shell_tank_hit at hhit
        simp only [Bool.and_eq_true, decide_eq_true_iff] at hhit
        exact ⟨s, t, hi, ht, hhit.1.1.2, hhit.1.2⟩
      · obtain ⟨s2, t2, hi2, hj2, hid, hteam⟩ := ih (shell_tank_step es i0).1 hmem
        obtain ⟨s1, hi1, hown1, hteam1⟩ := shell_tank_step_shell_back es i0 i s2 hi2
        obtain ⟨t1, hj1, hid1, hteam1t⟩ := shell_tank_step_tank_back es i0 j t2 hj2
        refine ⟨s1, t1, hi1, hj1, ?_, ?_⟩
        · rw [hid1, hown1]
          exact hid
        · rw [hteam1t, hteam1]
          exact hteam

/-- Every Shell-vs-Tank event leaves its source shell destroyed at the end of
the pass. -/
theorem shell_tank_loop_event_dead (is : List Nat) (es : List Entity)
    (i j : Nat) (hmem : (i, j) ∈ (shell_tank_loop es is).2) :
    ∃ s : Shell, (shell_tank_loop es is).1[i]? = some (.shell s) ∧ s.alive = false := by
  induction is generalizing es with
  | nil => simp [shell_tank_loop] at hmem
  | cons i0 rest ih =>
      simp only [shell_tank_loop, List.mem_append] at hmem ⊢
      rcases hmem with hmem | hmem
      · obtain ⟨hsrc, s, t, hi, hs, ht, hhit, hout⟩ := shell_tank_step_events es i0 (i, j) hmem
        simp only at hsrc
        subst hsrc
        exact ⟨{ s with alive := false },
          shell_tank_loop_dead_shell rest _ i _ hout rfl, rfl⟩
      · exact ih _ hmem

/-! Shell-vs-Pillbox analogues of the pass lemmas.  The only asymmetry: a
damaged pillbox can change team (neutralisation), but then it is also
deactivated, so an active pillbox read from the pass still shows its original
team and activity. -/

/-- `Pillbox.take_damage` either leaves team and activity alone or ends with
the pillbox inactive. -/
theorem pill_take_damage_cases (p : Pillbox) (am : Int) :
    ((p.take_damage am).team = p.team ∧ (p.take_damage am).active = p.active) ∨
      (p.take_damage am).active = false := by
  unfold Pillbox.take_damage
  rcases le_or_lt (p.health - am) 0 with hh | hh
  · rw [if_pos hh]
    right
    rfl
  · rw [if_neg (by omega)]
    left
    exact ⟨rfl, rfl⟩

/-- What one Shell-vs-Pillbox outer iteration does to an arbitrary index. -/
theorem shell_pillbox_step_rel (es : List Entity) (i n : Nat) :
    (shell_pillbox_step es i).1[n]? = es[n]? ∨
    (∃ p am, es[n]? = some (.pillbox p) ∧
      (shell_pillbox_step es i).1[n]? = some (.pillbox (p.take_damage am))) ∨
    (∃ s, es[n]? = some (.shell s) ∧
      (shell_pillbox_step es i).1[n]? = some (.shell { s with alive := false })) := by
  unfold shell_pillbox_step
  split
  case _ s hi =>
    split
    case isTrue hs =>
      split
      case _ j hj =>
        split
        case _ p hp =>
          have hij : i ≠ j := by
            intro h
            rw [h, hp] at hi
            simp at hi
          have hiL : i < es.length := getElem?_some_lt hi
          have hjL : j < es.length := getElem?_some_lt hp
          rcases eq_or_ne n i with rfl | hni
          · right; right
            refine ⟨s, hi, ?_⟩
            simp only
            rw [List.getElem?_set_self (by simpa using hiL)]
          · rcases eq_or_ne n j with rfl | hnj
            · right; left
              refine ⟨p, s.damage, hp, ?_⟩
              simp only
              rw [List.getElem?_set_ne (fun h => hni h.symm),
                  List.getElem?_set_self hjL]
            · left
              simp only
              rw [List.getElem?_set_ne (fun h => hni h.symm),
                  List.getElem?_set_ne (fun h => hnj h.symm)]
        case _ => left; rfl
      case _ => left; rfl
    case isFalse hs => left; rfl
  case _ => left; rfl

/-- A dead shell makes its Shell-vs-Pillbox iteration a no-op. -/
theorem shell_pillbox_step_dead (es : List Entity) (i : Nat) (s : Shell)
    (hi : es[i]? = some (.shell s)) (hd : s.alive = false) :
    shell_pillbox_step es i = (es, []) := by
  unfold shell_pillbox_step
  rw [hi]
  simp [hd]

/-- Every event of one Shell-vs-Pillbox outer iteration. -/
theorem shell_pillbox_step_events (es : List Entity) (i : Nat) :
    ∀ ev ∈ (shell_pillbox_step es i).2, ev.1 = i ∧
      ∃ s p, es[i]? = some (.shell s) ∧ s.alive = true ∧
        es[ev.2]? = some (.pillbox p) ∧ shell_pillbox_hit s (.pillbox p) = true ∧
        (shell_pillbox_step es i).1[i]? = some (.shell { s with alive := false }) := by
  intro ev hev
  unfold shell_pillbox_step at hev
  split at hev
  case _ s hi =>
    split at hev
    case isTrue hs =>
      split at hev
      case _ j hj =>
        split at hev
        case _ p hp =>
          simp only [List.mem_singleton] at hev
          subst hev
          have hiL : i < es.length := getElem?_some_lt hi
          obtain ⟨a, haj, hhit⟩ := findIdx?_some_sat hj
          have ha : a = .pillbox p := by
            rw [haj] at hp
            exact Option.some.inj hp
          subst ha
          refine ⟨rfl, s, p, hi, hs, hp, hhit, ?_⟩
          have hstep : shell_pillbox_step es i =
              ((es.set j (.pillbox (p.take_damage s.damage))).set i
                 (.shell { s with alive := false }), [(i, j)]) := by
            unfold shell_pillbox_step
            rw [hi]
            simp [hs, hj, hp]
          rw [hstep]
          exact List.getElem?_set_self (by simpa using hiL)
        case _ => simp at hev
      case _ => simp at hev
    case isFalse => simp at hev
  case _ => simp at hev

/-- One Shell-vs-Pillbox outer iteration emits no event or exactly one,
sourced at its own index. -/
theorem shell_pillbox_step_events_shape (es : List Entity) (i : Nat) :
    (shell_pillbox_step es i).2 = [] ∨ ∃ j, (shell_pillbox_step es i).2 = [(i, j)] := by
  unfold shell_pillbox_step
  split
  · split
    · split
      · split
        · right
          exact ⟨_, rfl⟩
        · left
          rfl
      · left
        rfl
    · left
      rfl
  · left
    rfl

/-- One Shell-vs-Pillbox iteration, read backward at a shell of its result. -/
theorem shell_pillbox_step_shell_back (es : List Entity) (i n : Nat) (s2 : Shell)
    (h : (shell_pillbox_step es i).1[n]? = some (.shell s2)) :
    ∃ s1 : Shell, es[n]? = some (.shell s1) ∧
      s1.owner_id = s2.owner_id ∧ s1.team = s2.team := by
  rcases shell_pillbox_step_rel es i n with hrel | ⟨p0, am, h0, hres⟩ | ⟨s0, h0, hres⟩
  · exact ⟨s2, hrel.symm.trans h, rfl, rfl⟩
  · have := Option.some.inj (h.symm.trans hres)
    simp at this
  · have he : Entity.shell s2 = Entity.shell { s0 with alive := false } :=
      Option.some.inj (h.symm.trans hres)
    have hs2 : s2 = { s0 with alive := false } := by injection he
    subst hs2
    exact ⟨s0, h0, rfl, rfl⟩

/-- One Shell-vs-Pillbox iteration, read backward at a pillbox of its result:
the original pillbox either shows the same team/activity or the result is
inactive. -/
theorem shell_pillbox_step_pill_back (es : List Entity) (i n : Nat) (p2 : Pillbox)
    (h : (shell_pillbox_step es i).1[n]? = some (.pillbox p2)) :
    ∃ p1 : Pillbox, es[n]? = some (.pillbox p1) ∧
      ((p2.team = p1.team ∧ p2.active = p1.active) ∨ p2.active = false) := by
  rcases shell_pillbox_step_rel es i n with hrel | ⟨p0, am, h0, hres⟩ | ⟨s0, h0, hres⟩
  · exact ⟨p2, hrel.symm.trans h, Or.inl ⟨rfl, rfl⟩⟩
  · have he : Entity.pillbox p2 = Entity.pillbox (p0.take_damage am) :=
      Option.some.inj (h.symm.trans hres)
    have hp2 : p2 = p0.take_damage am := by injection he
    subst hp2
    exact ⟨p0, h0, pill_take_damage_cases p0 am⟩
  · have := Option.some.inj (h.symm.trans hres)
    simp at this

/-- A destroyed shell remains untouched through a Shell-vs-Pillbox
iteration. -/
theorem shell_pillbox_step_dead_stable (es : List Entity) (i n : Nat) (s : Shell)
    (h : es[n]? = some (.shell s)) (hd : s.alive = false) :
    (shell_pillbox_step es i).1[n]? = some (.shell s) := by
  rcases shell_pillbox_step_rel es i n with hrel | ⟨p0, am, h0, hres⟩ | ⟨s0, h0, hres⟩
  · rw [hrel, h]
  · rw [h0] at h
    simp at h
  · rw [h0] at h
    have hs := Option.some.inj h
    have hs0 : s0 = s := by injection hs
    subst hs0
    rw [hres, shell_alive_false_eq s0 hd]

/-- Shells keep their owner and team through a whole Shell-vs-Pillbox pass. -/
theorem shell_pillbox_loop_shell_back (is : List Nat) (es : List Entity) (n : Nat)
    (s2 : Shell) (h : (shell_pillbox_loop es is).1[n]? = some (.shell s2)) :
    ∃ s1 : Shell, es[n]? = some (.shell s1) ∧
      s1.owner_id = s2.owner_id ∧ s1.team = s2.team := by
  induction is generalizing es with
  | nil => exact ⟨s2, h, rfl, rfl⟩
  | cons i0 rest ih =>
      simp only [shell_pillbox_loop] at h
      obtain ⟨sm, hm, hown, hteam⟩ := ih (shell_pillbox_step es i0).1 h
      obtain ⟨s1, h1, hown1, hteam1⟩ := shell_pillbox_step_shell_back es i0 n sm hm
      exact ⟨s1, h1, hown1.trans hown, hteam1.trans hteam⟩

/-- Sources of Shell-vs-Pillbox events lie in the iterated index list, each at
most as often as the index itself occurs. -/
theorem shell_pillbox_loop_countP (is : List Nat) (es : List Entity) (i0 : Nat) :
    (shell_pillbox_loop es is).2.countP (fun ev => ev.1 == i0) ≤ is.count i0 := by
  induction is generalizing es with
  | nil => simp [shell_pillbox_loop]
  | cons i rest ih =>
      simp only [shell_pillbox_loop, List.countP_append, List.count_cons]
      have hhead : (shell_pillbox_step es i).2.countP (fun ev => ev.1 == i0) ≤
          (if (i == i0) = true then 1 else 0) := by
        rcases shell_pillbox_step_events_shape es i with hs | ⟨j, hs⟩
        · simp [hs]
        · rw [hs]
          simp only [List.countP_cons, List.countP_nil]
          split <;> simp_all
      calc (shell_pillbox_step es i).2.countP (fun ev => ev.1 == i0) +
            ((shell_pillbox_loop (shell_pillbox_step es i).1 rest).2.countP (fun ev => ev.1 == i0))
          ≤ (if (i == i0) = true then 1 else 0) + rest.count i0 :=
            Nat.add_le_add hhead (ih _)
        _ = rest.count i0 + (if (i == i0) = true then 1 else 0) := Nat.add_comm _ _

/-- A shell that enters the Shell-vs-Pillbox pass already destroyed sources
no event of the pass. -/
theorem shell_pillbox_loop_dead_no_event (is : List Nat) (es : List Entity)
    (n : Nat) (s : Shell) (h : es[n]? = some (.shell s)) (hd : s.alive = false) :
    (shell_pillbox_loop es is).2.countP (fun ev => ev.1 == n) = 0 := by
  induction is generalizing es with
  | nil => simp [shell_pillbox_loop]
  | cons i0 rest ih =>
      simp only [shell_pillbox_loop, List.countP_append]
      have hhead : (shell_pillbox_step es i0).2.countP (fun ev => ev.1 == n) = 0 := by
        rcases eq_or_ne i0 n with rfl | hne
        · rw [shell_pillbox_step_dead es i0 s h hd]
          simp
        · rcases shell_pillbox_step_events_shape es i0 with hs | ⟨j, hs⟩
          · simp [hs]
          · rw [hs]
            simp [hne]
      rw [hhead, ih _ (shell_pillbox_step_dead_stable es i0 n s h hd)]

/-- Every Shell-vs-Pillbox event names a shell index and a pillbox index of
the pass's input list; the pillbox was active there and of a different team
than the shell. -/
theorem shell_pillbox_loop_event_excl (is : List Nat) (es : List Entity)
    (i j : Nat) (hmem : (i, j) ∈ (shell_pillbox_loop es is).2) :
    ∃ s p, es[i]? = some (.shell s) ∧ es[j]? = some (.pillbox p) ∧
      p.active = true ∧ p.team ≠ s.team := by
  induction is generalizing es with
  | nil => simp [shell_pillbox_loop] at hmem
  | cons i0 rest ih =>
      simp only [shell_pillbox_loop, List.mem_append] at hmem
      rcases hmem with hmem | hmem
      · obtain ⟨hsrc, s, p, hi, hs, hp, hhit, -⟩ := shell_pillbox_step_events es i0 (i, j) hmem
        simp only at hsrc
        subst hsrc
        unfold shell_pillbox_hit at hhit
        simp only [Bool.and_eq_true, decide_eq_true_iff] at hhit
        exact ⟨s, p, hi, hp, hhit.1.1.2, hhit.1.2⟩
      · obtain ⟨s2, p2, hi2, hj2, hact, hteam⟩ := ih (shell_pillbox_step es i0).1 hmem
        obtain ⟨s1, hi1, hown1, hteam1⟩ := shell_pillbox_step_shell_back es i0 i s2 hi2
        obtain ⟨p1, hj1, hrel⟩ := shell_pillbox_step_pill_back es i0 j p2 hj2
        rcases hrel with ⟨hteq, haeq⟩ | hinact
        · refine ⟨s1, p1, hi1, hj1, ?_, ?_⟩
          · rw [← haeq]
            exact hact
          · rw [← hteq, hteam1]
            exact hteam
        · rw [hact] at hinact
          exact absurd hinact (by simp)

/-! ## Claim C1: each shell damages at most one entity, with exclusions -/

/-- C1: in one `_process_collisions` call, every shell index sources at most
one damage event across the Shell-Tank and Shell-Pillbox categories combined
(a shell that hits is destroyed and skipped thereafter); a shell never
damages the tank with its own `owner_id` nor a same-team tank nor a
same-team active pillbox; and the four categories run in the fixed order
Shell-Tank, Shell-Pillbox, Tank-Mine, Tank-Base. -/
theorem C1_shell_damage_exclusivity (es : List Entity) (m : GameMap) :
    (∀ i : Nat,
      ((shell_tank_pass es).2 ++
        (shell_pillbox_pass (shell_tank_pass es).1).2).countP
          (fun ev => ev.1 == i) ≤ 1) ∧
    (∀ i j : Nat, (i, j) ∈ (shell_tank_pass es).2 →
      ∃ s t, es[i]? = some (.shell s) ∧ es[j]? = some (.tank t) ∧
        t.id ≠ s.owner_id ∧ t.team ≠ s.team) ∧
    (∀ i j : Nat, (i, j) ∈ (shell_pillbox_pass (shell_tank_pass es).1).2 →
      ∃ s p, es[i]? = some (.shell s) ∧ es[j]? = some (.pillbox p) ∧
        p.active = true ∧ p.team ≠ s.team) ∧
    process_collisions es m =
      (tank_base_pass
        (tank_mine_pass (shell_pillbox_pass (shell_tank_pass es).1).1 m).1,
       (tank_mine_pass (shell_pillbox_pass (shell_tank_pass es).1).1 m).2) := by
  refine ⟨fun i => ?_, fun i j hmem => ?_, fun i j hmem => ?_, rfl⟩
  · rw [List.countP_append]
    have h1 : (shell_tank_pass es).2.countP (fun ev => ev.1 == i) ≤ 1 :=
      (shell_tank_loop_countP _ es i).trans
        (List.nodup_iff_count_le_one.mp (List.nodup_range _) i)
    have h2 : (shell_pillbox_pass (shell_tank_pass es).1).2.countP
        (fun ev => ev.1 == i) ≤ 1 :=
      (shell_pillbox_loop_countP _ _ i).trans
        (List.nodup_iff_count_le_one.mp (List.nodup_range _) i)
    rcases Nat.eq_zero_or_pos
        ((shell_tank_pass es).2.countP (fun ev => ev.1 == i)) with hz | hpos
    · omega
    · obtain ⟨ev, hmem, hp⟩ := List.countP_pos.mp hpos
      obtain ⟨i1, j1⟩ := ev
      have hi1 : i1 = i := by simpa using hp
      subst hi1
      obtain ⟨s, hdead, hal⟩ := shell_tank_loop_event_dead _ es i1 j1 hmem
      have hz2 : (shell_pillbox_pass (shell_tank_pass es).1).2.countP
          (fun ev => ev.1 == i1) = 0 :=
        shell_pillbox_loop_dead_no_event _ _ i1 s hdead hal
      omega
  · exact shell_tank_loop_event_excl _ es i j hmem
  · obtain ⟨s2, p2, hi2, hj2, hact, hteam⟩ :=
      shell_pillbox_loop_event_excl _ _ i j hmem
    obtain ⟨s1, hi1, hown1, hteam1⟩ := shell_tank_loop_shell_back _ es i s2 hi2
    have hj1 := shell_tank_loop_pill_back _ es j p2 hj2
    refine ⟨s1, p2, hi1, hj1, hact, ?_⟩
    rw [hteam1]
    exact hteam

/-- A shell point-blank at an enemy tank, for evaluating C1. -/
def shellW : Shell := { id := 10, x := 0, y := 0, angle := 0, team := .TEAM_2, owner_id := 99 }

def tankW : Tank := { id := 0, x := 0, y := 0, team := .TEAM_1 }

def esW : List Entity := [.shell shellW, .tank tankW]

def mapW : GameMap := GameMap.new 4 4

/-- C1 evaluated: in `esW` the Shell-Tank pass records the hit (0,1), and the
victim satisfies the exclusions. -/
theorem C1_witness :
    ∃ s t, esW[0]? = some (.shell s) ∧ esW[1]? = some (.tank t) ∧
      t.id ≠ s.owner_id ∧ t.team ≠ s.team :=
  (C1_shell_damage_exclusivity esW mapW).2.1 0 1
    (of_decide_eq_true (by with_unfolding_all rfl))

/-! ## Claims C8 and C9: the tile map -/

/-- In-bounds shorthand used by `get_tile`/`set_tile`. -/
def GameMap.in_bounds (m : GameMap) (x y : Int) : Prop :=
  0 ≤ x ∧ x < (m.width : Int) ∧ 0 ≤ y ∧ y < (m.height : Int)

instance (m : GameMap) (x y : Int) : Decidable (m.in_bounds x y) := by
  unfold GameMap.in_bounds
  infer_instance

instance (m : GameMap) : Decidable m.WF := by
  unfold GameMap.WF
  infer_instance

/-- Writing an in-bounds cell of a well-formed grid and reading it back
yields the written kind. -/
theorem get_tile_set_tile_self (m : GameMap) (x y : Int) (k : TileType)
    (hwf : m.WF) (hin : m.in_bounds x y) :
    (m.set_tile x y k).get_tile x y = k := by
  obtain ⟨hlen, hrows⟩ := hwf
  obtain ⟨hx0, hxw, hy0, hyh⟩ := hin
  have hy : y.toNat < m.tiles.length := by
    rw [hlen]
    omega
  have hrowmem : m.tiles.getD y.toNat [] ∈ m.tiles := by
    rw [List.getD_eq_getElem?_getD, List.getElem?_eq_getElem hy]
    exact List.getElem_mem hy
  have hx : x.toNat < (m.tiles.getD y.toNat []).length := by
    rw [hrows _ hrowmem]
    omega
  unfold GameMap.set_tile
  rw [if_pos ⟨hx0, hxw, hy0, hyh⟩]
  unfold GameMap.get_tile
  dsimp only
  rw [if_pos ⟨hx0, hxw, hy0, hyh⟩]
  simp only [List.getD_eq_getElem?_getD] at hx ⊢
  rw [List.getElem?_set_self hy, Option.getD_some, List.getElem?_set_self hx,
      Option.getD_some]

/-- C9: outside the grid, `get_tile` answers WALL and `set_tile` changes no
cell; inside a well-formed grid, `get_tile` answers exactly the stored cell
and `set_tile` stores exactly the given kind at the addressed cell. -/
theorem C9_bounds_policy (m : GameMap) (x y : Int) :
    (¬ m.in_bounds x y →
      m.get_tile x y = .WALL ∧ ∀ k, (m.set_tile x y k).tiles = m.tiles) ∧
    (m.WF → m.in_bounds x y →
      (∀ row k, m.tiles[y.toNat]? = some row → row[x.toNat]? = some k →
        m.get_tile x y = k) ∧
      (∀ k, (m.set_tile x y k).get_tile x y = k)) := by
  constructor
  · intro hob
    unfold GameMap.in_bounds at hob
    refine ⟨?_, fun k => ?_⟩
    · unfold GameMap.get_tile
      rw [if_neg hob]
    · unfold GameMap.set_tile
      rw [if_neg hob]
  · intro hwf hin
    refine ⟨fun row k hrow hcell => ?_, fun k => get_tile_set_tile_self m x y k hwf hin⟩
    unfold GameMap.in_bounds at hin
    unfold GameMap.get_tile
    rw [if_pos hin]
    simp only [List.getD_eq_getElem?_getD]
    rw [hrow, Option.getD_some, hcell, Option.getD_some]

/-- A 2×1 map holding a WALL and a RUBBLE cell. -/
def map89 : GameMap := ⟨2, 1, [[.WALL, .RUBBLE]], true⟩

/-- C9 evaluated on `map89`: an out-of-bounds read answers WALL and an
out-of-bounds write leaves the grid alone; an in-bounds read answers the
stored cell and an in-bounds write sticks. -/
theorem C9_witness :
    (map89.get_tile 5 0 = .WALL ∧ ∀ k, (map89.set_tile 5 0 k).tiles = map89.tiles) ∧
    map89.get_tile 0 0 = .WALL ∧
    (map89.set_tile 1 0 .ROAD).get_tile 1 0 = .ROAD := by
  have h5 := (C9_bounds_policy map89 5 0).1 (by decide)
  have h0 := ((C9_bounds_policy map89 0 0).2 (by decide) (by decide)).1
    [.WALL, .RUBBLE] .WALL rfl rfl
  have h1 := ((C9_bounds_policy map89 1 0).2 (by decide) (by decide)).2 .ROAD
  exact ⟨h5, h0, h1⟩

/-- C8: on an in-bounds cell of a well-formed grid, `damage_tile` applies
exactly the transition table WALL→DAMAGED_WALL, DAMAGED_WALL→RUBBLE,
FOREST→GRASS, SWAMP→CRATER and leaves a cell of any other kind — and the
whole map — unchanged; in particular a call on a RUBBLE or ROAD cell changes
nothing. -/
theorem C8_damage_tile_transitions (m : GameMap) (x y : Int)
    (hwf : m.WF) (hin : m.in_bounds x y) :
    ((m.damage_tile x y).get_tile x y =
      (match m.get_tile x y with
       | .WALL => .DAMAGED_WALL
       | .DAMAGED_WALL => .RUBBLE
       | .FOREST => .GRASS
       | .SWAMP => .CRATER
       | t => t)) ∧
    ((m.get_tile x y ≠ .WALL ∧ m.get_tile x y ≠ .DAMAGED_WALL ∧
      m.get_tile x y ≠ .FOREST ∧ m.get_tile x y ≠ .SWAMP) →
      m.damage_tile x y = m) ∧
    (m.get_tile x y = .RUBBLE ∨ m.get_tile x y = .ROAD → m.damage_tile x y = m) := by
  have hid : ∀ (hne : m.get_tile x y ≠ .WALL ∧ m.get_tile x y ≠ .DAMAGED_WALL ∧
      m.get_tile x y ≠ .FOREST ∧ m.get_tile x y ≠ .SWAMP), m.damage_tile x y = m := by
    intro ⟨h1, h2, h3, h4⟩
    unfold GameMap.damage_tile
    cases hg : m.get_tile x y <;> simp_all
  refine ⟨?_, hid, ?_⟩
  · cases hg : m.get_tile x y
    case WALL =>
        unfold GameMap.damage_tile
        rw [hg]
        exact get_tile_set_tile_self m x y _ hwf hin
    case DAMAGED_WALL =>
        unfold GameMap.damage_tile
        rw [hg]
        exact get_tile_set_tile_self m x y _ hwf hin
    case FOREST =>
        unfold GameMap.damage_tile
        rw [hg]
        exact get_tile_set_tile_self m x y _ hwf hin
    case SWAMP =>
        unfold GameMap.damage_tile
        rw [hg]
        exact get_tile_set_tile_self m x y _ hwf hin
    all_goals
      rw [hid (by simp [hg]), hg]
  · intro h
    refine hid ?_
    rcases h with h | h <;> simp [h]

/-- C8 evaluated on `map89`: WALL damages to DAMAGED_WALL, and damaging the
RUBBLE cell changes nothing at all. -/
theorem C8_witness :
    (map89.damage_tile 0 0).get_tile 0 0 = .DAMAGED_WALL ∧
    map89.damage_tile 1 0 = map89 := by
  have h0 := (C8_damage_tile_transitions map89 0 0 (by decide) (by decide)).1
  have h1 := (C8_damage_tile_transitions map89 1 0 (by decide) (by decide)).2.2
  refine ⟨?_, h1 (Or.inl (of_decide_eq_true (by with_unfolding_all rfl)))⟩
  rw [h0]
  rfl

/-! ## Claim C2: pending spawns are invisible to this frame's collisions

Every entity handed to `add_entity` during a frame's entity-update phase sits
in `pending_entities` with an id issued at or after the frame's starting
counter value, while every entity of the collision pass's input list keeps an
id from before it — so the spawn cannot be an element of the list
`_process_collisions` iterates, and it is merged into `entities` at the top
of the next non-paused `update`. -/

/-- Id freshness: every live and pending entity has an id below the counter
(true of every state the engine constructs, since ids are issued from the
counter), and pending ids are not among the live ids. -/
def fresh_inv (st : GameState) : Prop :=
  (∀ e ∈ st.entities, e.eid < st.next_id) ∧
  (∀ p ∈ st.pending_entities, p.eid < st.next_id) ∧
  (∀ p ∈ st.pending_entities, p.eid ∉ st.entities.map Entity.eid)

/-- A self-update never changes an entity's id. -/
theorem entity_update_eid (env : Env) (st : GameState) (e : Entity) :
    (e.update env st).1.eid = e.eid := by
  cases e with
  | tank t =>
      show (Tank.update t).id = t.id
      unfold Tank.update
      dsimp only
      split_ifs <;> rfl
  | shell s =>
      show (Shell.update env st s).1.id = s.id
      unfold Shell.update
      dsimp only
      split_ifs <;> rfl
  | mine mn => rfl
  | pillbox p =>
      show (Pillbox.update env st p).1.id = p.id
      unfold Pillbox.update
      dsimp only
      split_ifs <;> first | rfl | (split <;> rfl)
  | base b =>
      show (Base.update b).id = b.id
      unfold Base.update
      dsimp only
      split_ifs <;> rfl

/-- A self-update never touches the live list, never lowers the id counter,
and grows the pending buffer by nothing or by one shell carrying the
counter's value as id. -/
theorem entity_update_state (env : Env) (st : GameState) (e : Entity) :
    (e.update env st).2.entities = st.entities ∧
    st.next_id ≤ (e.update env st).2.next_id ∧
    ((e.update env st).2.pending_entities = st.pending_entities ∧
      (e.update env st).2.next_id = st.next_id ∨
     ∃ sh : Shell, sh.id = st.next_id ∧
       (e.update env st).2.pending_entities = st.pending_entities ++ [.shell sh] ∧
       (e.update env st).2.next_id = st.next_id + 1) := by
  cases e with
  | tank t => exact ⟨rfl, le_refl _, Or.inl ⟨rfl, rfl⟩⟩
  | shell s =>
      show (Shell.update env st s).2.entities = st.entities ∧
        st.next_id ≤ (Shell.update env st s).2.next_id ∧
        ((Shell.update env st s).2.pending_entities = st.pending_entities ∧
          (Shell.update env st s).2.next_id = st.next_id ∨
         ∃ sh : Shell, sh.id = st.next_id ∧
           (Shell.update env st s).2.pending_entities = st.pending_entities ++ [.shell sh] ∧
           (Shell.update env st s).2.next_id = st.next_id + 1)
      unfold Shell.update
      dsimp only
      split_ifs <;> exact ⟨rfl, le_refl _, Or.inl ⟨rfl, rfl⟩⟩
  | mine mn => exact ⟨rfl, le_refl _, Or.inl ⟨rfl, rfl⟩⟩
  | pillbox p =>
      show (Pillbox.update env st p).2.entities = st.entities ∧
        st.next_id ≤ (Pillbox.update env st p).2.next_id ∧
        ((Pillbox.update env st p).2.pending_entities = st.pending_entities ∧
          (Pillbox.update env st p).2.next_id = st.next_id ∨
         ∃ sh : Shell, sh.id = st.next_id ∧
           (Pillbox.update env st p).2.pending_entities = st.pending_entities ++ [.shell sh] ∧
           (Pillbox.update env st p).2.next_id = st.next_id + 1)
      unfold Pillbox.update
      dsimp only
      split_ifs <;>
        first
          | exact ⟨rfl, le_refl _, Or.inl ⟨rfl, rfl⟩⟩
          | (split
             · exact ⟨rfl, Nat.le_succ _, Or.inr ⟨_, rfl, rfl, rfl⟩⟩
             · exact ⟨rfl, le_refl _, Or.inl ⟨rfl, rfl⟩⟩)
  | base b => exact ⟨rfl, le_refl _, Or.inl ⟨rfl, rfl⟩⟩

/-- One entity-update iteration preserves the freshness invariant. -/
theorem update_step_inv (env : Env) (st : GameState) (i : Nat)
    (h : fresh_inv st) : fresh_inv (st.update_step env i) := by
  obtain ⟨h1, h2, h3⟩ := h
  unfold GameState.update_step
  split
  case _ e he =>
    obtain ⟨hent, hmono, hpend⟩ := entity_update_state env st e
    have heid := entity_update_eid env st e
    have hemem : e ∈ st.entities := by
      obtain ⟨hlt, heq⟩ := List.getElem?_eq_some.mp he
      exact heq ▸ List.getElem_mem hlt
    have hlive : ∀ q ∈ (e.update env st).2.entities.set i (e.update env st).1,
        q.eid < (e.update env st).2.next_id := by
      intro q hq
      rcases List.mem_or_eq_of_mem_set hq with hq | rfl
      · rw [hent] at hq
        exact lt_of_lt_of_le (h1 q hq) hmono
      · rw [heid]
        exact lt_of_lt_of_le (h1 e hemem) hmono
    refine ⟨hlive, ?_, ?_⟩
    · intro p hp
      rcases hpend with ⟨hpe, hni⟩ | ⟨sh, hsh, hpe, hni⟩
      · rw [hpe] at hp
        exact lt_of_lt_of_le (h2 p hp) hmono
      · rw [hpe, List.mem_append] at hp
        rcases hp with hp | hp
        · exact lt_of_lt_of_le (h2 p hp) hmono
        · simp only [List.mem_singleton] at hp
          subst hp
          rw [hni]
          show sh.id < st.next_id + 1
          omega
    · intro p hp hmem
      obtain ⟨q, hq, hqeid⟩ := List.mem_map.mp hmem
      have hex : ∃ q0 ∈ st.entities, q0.eid = p.eid := by
        rcases List.mem_or_eq_of_mem_set hq with hq2 | rfl
        · rw [hent] at hq2
          exact ⟨q, hq2, hqeid⟩
        · refine ⟨e, hemem, ?_⟩
          rw [← heid]
          exact hqeid
      obtain ⟨q0, hq0, hq0eid⟩ := hex
      rcases hpend with ⟨hpe, hni⟩ | ⟨sh, hsh, hpe, hni⟩
      · rw [hpe] at hp
        exact h3 p hp (List.mem_map.mpr ⟨q0, hq0, hq0eid⟩)
      · rw [hpe, List.mem_append] at hp
        rcases hp with hp | hp
        · exact h3 p hp (List.mem_map.mpr ⟨q0, hq0, hq0eid⟩)
        · simp only [List.mem_singleton] at hp
          subst hp
          have h50 : q0.eid < st.next_id := h1 q0 hq0
          have hps : (Entity.shell sh).eid = st.next_id := hsh
          rw [hq0eid, hps] at h50
          exact lt_irrefl _ h50
  case _ => exact ⟨h1, h2, h3⟩

/-- A whole entity-update phase (any index order) preserves freshness. -/
theorem foldl_update_step_inv (env : Env) (is : List Nat) (st : GameState)
    (h : fresh_inv st) : fresh_inv (is.foldl (GameState.update_step env) st) := by
  induction is generalizing st with
  | nil => exact h
  | cons i rest ih => exact ih _ (update_step_inv env st i h)

/-- `_update_camera` only moves the camera. -/
theorem update_camera_keeps (st : GameState) :
    (st.update_camera).pending_entities = st.pending_entities ∧
    (st.update_camera).entities = st.entities := by
  unfold GameState.update_camera
  split
  · exact ⟨rfl, rfl⟩
  · split
    · split
      · split <;> exact ⟨rfl, rfl⟩
      · exact ⟨rfl, rfl⟩
    · exact ⟨rfl, rfl⟩

/-- C2: entities added to the pending buffer during a frame's entity-update
phase are exactly the post-frame pending buffer; none of them is (by id, and
hence as an element) in the list `_process_collisions` iterates that frame;
the frame's live list is that collision output, purged; the pending buffer is
merged into the live collection at the top of the next non-paused `update`
(and that merge is `entities ++ pending`, clearing pending). -/
theorem C2_pending_spawn_visibility (env : Env) (st : GameState)
    (hp : st.paused = false) (hg : st.game_over = false)
    (hfresh : ∀ e ∈ st.entities ++ st.pending_entities, e.eid < st.next_id) :
    (st.merge_phase.entities = st.entities ++ st.pending_entities ∧
      st.merge_phase.pending_entities = []) ∧
    ((st.update env).pending_entities =
      ((st.merge_phase).update_phase env).pending_entities) ∧
    (∀ p ∈ ((st.merge_phase).update_phase env).pending_entities,
      p.eid ∉ ((st.merge_phase).update_phase env).entities.map Entity.eid) ∧
    ((st.update env).entities =
      (process_collisions ((st.merge_phase).update_phase env).entities
        ((st.merge_phase).update_phase env).game_map).1.filter Entity.is_alive) ∧
    (∀ p ∈ (st.update env).pending_entities,
      p ∈ ((st.update env).merge_phase).entities) := by
  have hrun : st.update env = st.run_frame env := by
    unfold GameState.update
    rw [hp, hg]
    rfl
  have hframe : st.run_frame env =
      GameState.update_camera
        { (st.merge_phase).update_phase env with
          entities := (process_collisions ((st.merge_phase).update_phase env).entities
            ((st.merge_phase).update_phase env).game_map).1.filter Entity.is_alive,
          game_map := (process_collisions ((st.merge_phase).update_phase env).entities
            ((st.merge_phase).update_phase env).game_map).2 } := rfl
  have hinv : fresh_inv ((st.merge_phase).update_phase env) := by
    refine foldl_update_step_inv env _ _ ⟨?_, ?_, ?_⟩
    · exact hfresh
    · intro p hp2
      simp [GameState.merge_phase] at hp2
    · intro p hp2
      simp [GameState.merge_phase] at hp2
  refine ⟨⟨rfl, rfl⟩, ?_, hinv.2.2, ?_, ?_⟩
  · rw [hrun, hframe, (update_camera_keeps _).1]
  · rw [hrun, hframe, (update_camera_keeps _).2]
  · intro p hp2
    unfold GameState.merge_phase
    simp only [List.mem_append]
    exact Or.inr hp2

/-- A pillbox ready to fire at an enemy tank in range, for evaluating C2. -/
def pbC2 : Pillbox := { id := 20, x := 0, y := 0, team := .TEAM_2 }

def tkC2 : Tank := { id := 21, x := 10, y := 0, team := .TEAM_1 }

def stC2 : GameState := { game_map := mapW, entities := [.pillbox pbC2, .tank tkC2],
                          next_id := 50 }

/-- The shell `pbC2` fires during the update phase of `stC2` under `env0`:
fresh id 50, owned by the pillbox. -/
def shC2 : Shell := { id := 50, x := 0, y := 0, angle := 0, team := .TEAM_2,
                      owner_id := 20 }

/-- C2 evaluated: the pillbox's mid-frame shell is in the pending buffer, and
its id is not among the ids of the list this frame's collision pass sees. -/
theorem C2_witness :
    (Entity.shell shC2).eid ∉
      ((stC2.merge_phase).update_phase env0).entities.map Entity.eid := by
  have h := (C2_pending_spawn_visibility env0 stC2 rfl rfl (by decide)).2.2.1
  exact h (.shell shC2) (of_decide_eq_true (by with_unfolding_all rfl))

end Bolo
